import Mathlib

/-!
# Last-Show Oracle — verification of the specification against the code

A shallow embedding of the core of the Last-Show Oracle service
(`worker.py` and `songkick_row_classification.py`): date normalization,
row/candidate extraction from a parsed document tree, the multi-stage metro
classification heuristic, candidate deduplication, and the deterministic
selection engine.  External collaborators (the HTTP layer, the venue
whitelist file, the `dateutil` natural-language parser, "today") are modelled
as explicit parameters, following the design note that configuration should
be injected rather than ambient.
-/

namespace LSO

/-! ## String helpers (Python `in`, `str.find`, `lower`, whitespace handling) -/

/-- Python `needle in haystack` substring test, on lists of characters:
`n` occurs as a contiguous sublist of `h`. -/
def subOccurs (n : List Char) : List Char → Bool
  | [] => n.isEmpty
  | c :: t => n.isPrefixOf (c :: t) || subOccurs n t

/-- Python `needle in haystack` on strings. -/
def strContains (haystack needle : String) : Bool :=
  subOccurs needle.data haystack.data

/-- Python `haystack.find(needle)`: index (in characters) of the leftmost
occurrence, or `none` (Python returns `-1`). -/
def listFind (n : List Char) : List Char → Option Nat
  | [] => if n.isEmpty then some 0 else none
  | c :: t =>
    if n.isPrefixOf (c :: t) then some 0
    else (listFind n t).map (· + 1)

/-- Python `haystack.find(needle)` on strings. -/
def strFind (haystack needle : String) : Option Nat :=
  listFind needle.data haystack.data

/-- Python slice `s[a:b]` (with `0 ≤ a`, `b` clamped by `take`/`drop`). -/
def strSlice (s : String) (a b : Nat) : String :=
  String.mk ((s.data.take b).drop a)

/-- Python `str.lower()` (character-wise, ASCII as in the modelled data). -/
def pyLower (s : String) : String := String.mk (s.data.map Char.toLower)

/-- Python `str.upper()`. -/
def pyUpper (s : String) : String := String.mk (s.data.map Char.toUpper)

/-- Python word character for `re` word boundaries (`\w`, ASCII range). -/
def isWordChar (c : Char) : Bool :=
  c.isAlpha || c.isDigit || c = '_'

/-- Python `\s` whitespace class (ASCII range). -/
def isPyWs (c : Char) : Bool :=
  c = ' ' || c = '\t' || c = '\n' || c = '\r' || c = '\x0b' || c = '\x0c'

/-- Python `str.strip()`: leading and trailing whitespace removed. -/
def pyStrip (s : String) : String :=
  String.mk (((s.data.dropWhile isPyWs).reverse.dropWhile isPyWs).reverse)

/-- Python `str.split()` (split on whitespace runs, dropping empty pieces);
`acc` holds the current word reversed. -/
def pySplitAux (acc : List Char) : List Char → List String
  | [] => if acc.isEmpty then [] else [String.mk acc.reverse]
  | c :: t =>
    if isPyWs c then
      if acc.isEmpty then pySplitAux [] t
      else String.mk acc.reverse :: pySplitAux [] t
    else pySplitAux (c :: acc) t

/-- Python `str.split()` on a string. -/
def pySplit (s : String) : List String :=
  pySplitAux [] s.data

/-- Whitespace collapsing: `" ".join(text.split())`. -/
def collapseWs (s : String) : String :=
  String.intercalate " " (pySplit s)

/-- Count of leading `\s` characters (greedy `\s*`). -/
def countWs : List Char → Nat
  | [] => 0
  | c :: t => if isPyWs c then countWs t + 1 else 0

/-- Numeric value of a decimal digit character. -/
def digitVal (c : Char) : Nat := c.toNat - 48

/-- Decimal digit character for `k < 10` (used for `%Y-%m-%d` formatting). -/
def digitChar (k : Nat) : Char := Char.ofNat (48 + k)

/-- Zero-padded two-digit rendering (strftime `%m` / `%d`). -/
def pad2 (n : Nat) : String :=
  String.mk [digitChar (n / 10 % 10), digitChar (n % 10)]

/-- Zero-padded four-digit rendering (strftime `%Y`). -/
def pad4 (n : Nat) : String :=
  String.mk [digitChar (n / 1000 % 10), digitChar (n / 100 % 10),
             digitChar (n / 10 % 10), digitChar (n % 10)]

/-- strftime `"%Y-%m-%d"`. -/
def formatYMD (y m d : Nat) : String :=
  pad4 y ++ "-" ++ pad2 m ++ "-" ++ pad2 d

/-! ## Calendar arithmetic

`datetime.date` ordering and subtraction are by proleptic-Gregorian day
ordinal; `daysFromCivil` is the standard civil-from-days algorithm giving a
day number (days since 1970-01-01) that is strictly monotone in the date. -/

def isLeapYear (y : Nat) : Bool :=
  (y % 4 = 0 && y % 100 ≠ 0) || y % 400 = 0

/-- Month lengths as validated by the `datetime.date` constructor. -/
def daysInMonth (y m : Nat) : Nat :=
  if m = 2 then (if isLeapYear y then 29 else 28)
  else if m = 4 || m = 6 || m = 9 || m = 11 then 30
  else 31

/-- Days since 1970-01-01 of the civil date `(y, m, d)` (`y ≥ 1`). -/
def daysFromCivil (y m d : Nat) : Int :=
  let y' : Int := (y : Int) - (if m ≤ 2 then 1 else 0)
  let era : Int := y' / 400
  let yoe : Int := y' - era * 400
  let mp : Int := ((m : Int) + 9) % 12
  let doy : Int := (153 * mp + 2) / 5 + (d : Int) - 1
  let doe : Int := yoe * 365 + yoe / 4 - yoe / 100 + doy
  era * 146097 + doe - 719468

/-! ## `datetime.strptime(s, "%Y-%m-%d")`

The CPython `_strptime` module compiles the format into the regex
`(?P<Y>\d\d\d\d)-(?P<m>1[0-2]|0[1-9]|[1-9])-(?P<d>3[01]|[12]\d|0[1-9]|[1-9])`,
anchored at the start; after a regex match the whole input must have been
consumed ("unconverted data remains" otherwise), and the `date` constructor
then validates the day against the month length (and `year ≥ 1`).
The alternations are ordered; a two-digit alternative that matches commits
(a down-stream failure after a two-digit month match cannot be rescued by
the one-digit alternative, since the next character is then a digit and the
format requires `-`). -/

/-- Month group `1[0-2]|0[1-9]|[1-9]`: value and unconsumed rest. -/
def strpMonth : List Char → Option (Nat × List Char)
  | c1 :: c2 :: r =>
    if c1 = '1' && '0' ≤ c2 && c2 ≤ '2' then some (10 + digitVal c2, r)
    else if c1 = '0' && '1' ≤ c2 && c2 ≤ '9' then some (digitVal c2, r)
    else if '1' ≤ c1 && c1 ≤ '9' then some (digitVal c1, c2 :: r)
    else none
  | [c1] => if '1' ≤ c1 && c1 ≤ '9' then some (digitVal c1, []) else none
  | [] => none

/-- Day group `3[01]|[12]\d|0[1-9]|[1-9]`: value and unconsumed rest. -/
def strpDay : List Char → Option (Nat × List Char)
  | c1 :: c2 :: r =>
    if c1 = '3' && '0' ≤ c2 && c2 ≤ '1' then some (30 + digitVal c2, r)
    else if '1' ≤ c1 && c1 ≤ '2' && c2.isDigit then
      some (10 * digitVal c1 + digitVal c2, r)
    else if c1 = '0' && '1' ≤ c2 && c2 ≤ '9' then some (digitVal c2, r)
    else if '1' ≤ c1 && c1 ≤ '9' then some (digitVal c1, c2 :: r)
    else none
  | [c1] => if '1' ≤ c1 && c1 ≤ '9' then some (digitVal c1, []) else none
  | [] => none

/-- Python `datetime.strptime(s, "%Y-%m-%d").date()`, `none` on any `ValueError`. -/
def strptimeYMD (s : String) : Option (Nat × Nat × Nat) :=
  match s.data with
  | y1 :: y2 :: y3 :: y4 :: '-' :: rest =>
    if y1.isDigit && y2.isDigit && y3.isDigit && y4.isDigit then
      let y := ((digitVal y1 * 10 + digitVal y2) * 10 + digitVal y3) * 10
               + digitVal y4
      match strpMonth rest with
      | some (m, '-' :: rest2) =>
        match strpDay rest2 with
        | some (d, []) =>
          -- date(...) construction: MINYEAR ≤ y and d within the month
          if 1 ≤ y && d ≤ daysInMonth y m then some (y, m, d) else none
        | _ => none  -- no day match, or unconverted data remains
      | _ => none
    else none
  | _ => none

/-! ## `validate_date_sanity` (worker.py)

`re.match(r"^(\d{4})-(\d{2})-(\d{2})", date_iso)` anchors at the start but
not at the end: only a 10-character prefix is inspected. -/

/-- The anchored prefix match of `^(\d{4})-(\d{2})-(\d{2})`. -/
def isoPrefixParse (s : String) : Option (Nat × Nat × Nat) :=
  match s.data with
  | a :: b :: c :: d :: e :: f :: g :: h :: i :: j :: _ =>
    if a.isDigit && b.isDigit && c.isDigit && d.isDigit && e = '-'
       && f.isDigit && g.isDigit && h = '-' && i.isDigit && j.isDigit then
      some (((digitVal a * 10 + digitVal b) * 10 + digitVal c) * 10
              + digitVal d,
            digitVal f * 10 + digitVal g,
            digitVal i * 10 + digitVal j)
    else none
  | _ => none

/-- Python `validate_date_sanity`, with `datetime.now().year` passed explicitly. -/
def validate_date_sanity (currentYear : Nat) (date_iso : String) : Bool :=
  match isoPrefixParse date_iso with
  | none => false
  | some (year, month, day) =>
    if !(1900 ≤ year && year ≤ currentYear + 2) then false
    else if !(1 ≤ month && month ≤ 12) then false
    else if !(1 ≤ day && day ≤ 31) then false
    else true

/-! ## `parse_date` (worker.py)

The permissive natural-language parse (`dateutil.parser.parse(clean_text,
fuzzy=True)`) is an external collaborator and is injected as
`duParse : String → Option (Nat × Nat × Nat)` giving the parsed
(year, month, day); `none` stands for a raised exception. -/

/-- A match of `\d{4}-\d{2}-\d{2}` starting at the head of the list. -/
def isoShapeHere : List Char → Option (List Char)
  | a :: b :: c :: d :: e :: f :: g :: h :: i :: j :: _ =>
    if a.isDigit && b.isDigit && c.isDigit && d.isDigit && e = '-'
       && f.isDigit && g.isDigit && h = '-' && i.isDigit && j.isDigit then
      some [a, b, c, d, e, f, g, h, i, j]
    else none
  | _ => none

/-- Python `re.search(r"(\d{4}-\d{2}-\d{2})", text)`: leftmost match. -/
def findIsoSub : List Char → Option String
  | [] => none
  | l@(_ :: t) =>
    match isoShapeHere l with
    | some r => some (String.mk r)
    | none => findIsoSub t

/-- One attempt of `(on|at|playing|performed|shows?|concert)` (re.IGNORECASE)
at the head of the list: the number of characters consumed, alternatives in
pattern order, `s?` greedy. -/
def fillerMatchAt (l : List Char) : Option Nat :=
  let low := l.map Char.toLower
  if ['o', 'n'].isPrefixOf low then some 2
  else if ['a', 't'].isPrefixOf low then some 2
  else if ['p', 'l', 'a', 'y', 'i', 'n', 'g'].isPrefixOf low then some 7
  else if ['p', 'e', 'r', 'f', 'o', 'r', 'm', 'e', 'd'].isPrefixOf low then some 9
  else if ['s', 'h', 'o', 'w'].isPrefixOf low then
    some (if ['s', 'h', 'o', 'w', 's'].isPrefixOf low then 5 else 4)
  else if ['c', 'o', 'n', 'c', 'e', 'r', 't'].isPrefixOf low then some 7
  else none

/-- Python `re.sub(r"(on|at|playing|performed|shows?|concert)", "", text, flags=I)`:
scan left to right, deleting each leftmost match.  Fuel is the list length;
each step consumes at least one character. -/
def fillerSubAux : Nat → List Char → List Char
  | 0, l => l
  | _ + 1, [] => []
  | fuel + 1, c :: t =>
    match fillerMatchAt (c :: t) with
    | some n => fillerSubAux fuel ((c :: t).drop n)
    | none => c :: fillerSubAux fuel t

def fillerSub (s : String) : String :=
  String.mk (fillerSubAux s.data.length s.data)

/-- The cleaned text of `parse_date`: filler words removed, then `.strip()`. -/
def cleanText (s : String) : String := pyStrip (fillerSub s)

/-- Python `re.search(r"\d{1,2}/\d{1,2}", ...)` (and the `-` variant) succeeds iff
some digit is followed by the separator and a digit. -/
def digitSepDigit (sep : Char) : List Char → Bool
  | a :: b :: c :: t => (a.isDigit && b = sep && c.isDigit) || digitSepDigit sep (b :: c :: t)
  | _ => false

/-- Python `has_month`: month-name alternatives or `\d{1,2}/\d{1,2}` or
`\d{1,2}-\d{1,2}`, searched case-insensitively. -/
def hasMonthIndicator (s : String) : Bool :=
  let l := pyLower s
  ["jan", "feb", "mar", "apr", "may", "jun", "jul", "aug", "sep", "oct",
   "nov", "dec", "january", "february", "march", "april", "june", "july",
   "august", "september", "october", "november", "december"].any
    (fun m => strContains l m)
  || digitSepDigit '/' s.data || digitSepDigit '-' s.data

/-- Python `has_day`: `re.search(r"(\d{1,2}(?:st|nd|rd|th)?)", ...)` — the suffix is
optional and the run length flexible, so the search succeeds iff the text
contains a digit. -/
def hasDayIndicator (s : String) : Bool :=
  s.data.any Char.isDigit

/-- Search for `\b\d{4}\b`, , tracking whether the previous character is a word
character. -/
def hasYearAux (prevWord : Bool) : List Char → Bool
  | a :: b :: c :: d :: rest =>
    (!prevWord && a.isDigit && b.isDigit && c.isDigit && d.isDigit
      && (match rest with | [] => true | e :: _ => !isWordChar e))
    || hasYearAux (isWordChar a) (b :: c :: d :: rest)
  | _ => false

/-- Python `has_year`: `re.search(r"\b\d{4}\b", ...)`. -/
def hasYearIndicator (s : String) : Bool :=
  hasYearAux false s.data

/-- Python `re.match(r"^\d{4}$", t)`: exactly four digits. -/
def isFourDigitYearOnly (s : String) : Bool :=
  match s.data with
  | [a, b, c, d] => a.isDigit && b.isDigit && c.isDigit && d.isDigit
  | _ => false

/-- Python `parse_date` (worker.py), with the dateutil parser injected. -/
def parse_date (duParse : String → Option (Nat × Nat × Nat))
    (date_text : String) : Option String :=
  if date_text = "" then none
  else
    match findIsoSub date_text.data with
    | some iso => some iso
    | none =>
      let clean_text := cleanText date_text
      match duParse clean_text with
      | none => none  -- dateutil raised
      | some (y, m, d) =>
        let has_month := hasMonthIndicator clean_text
        let has_day := hasDayIndicator clean_text
        let has_year := hasYearIndicator clean_text
        if isFourDigitYearOnly (pyStrip clean_text) then none
        else if isFourDigitYearOnly (pyStrip clean_text)
                || (!has_month && !has_day) then none
        else if (has_month || has_day) && !has_year then none
        else some (formatYMD y m d)

/-! ## Candidate data model (worker.py `Candidate`) -/

structure Candidate where
  date_iso : String
  city : String
  venue : String
  url : String
  source_type : String
  snippet : String
  canceled : Bool := false
  source_host : Option String := none
  metro : Option String := none
deriving DecidableEq, Repr

/-- Python `SOURCE_PRECEDENCE.get(x.source_type, 0)`. -/
def sourcePrecedence (sourceType : String) : Nat :=
  if sourceType = "venue" then 7
  else if sourceType = "ticketing" then 6
  else if sourceType = "artist" then 5
  else if sourceType = "setlist" then 4
  else if sourceType = "songkick" then 3
  else if sourceType = "bandsintown" then 2
  else if sourceType = "press" then 1
  else 0

/-- Python `METRO_TOKENS` (worker.py). -/
def METRO_TOKENS (metro : String) : List String :=
  if metro = "SF" then
    ["San Francisco", "SF", "Oakland", "Berkeley", "San Jose", "Palo Alto",
     "Mountain View", "Santa Clara", "Daly City"]
  else if metro = "NYC" then
    ["New York", "NYC", "Manhattan", "Brooklyn", "Queens", "Bronx",
     "Staten Island"]
  else []

/-- Python `urlparse(url).netloc`: the authority component, present only after a
`scheme://` or a leading `//`. -/
def urlNetloc (url : String) : String :=
  match strFind url "://" with
  | some i =>
    let after := String.mk (url.data.drop (i + 3))
    String.mk (after.data.takeWhile (fun c => c ≠ '/' && c ≠ '?' && c ≠ '#'))
  | none =>
    if "//".data.isPrefixOf url.data then
      let after := String.mk (url.data.drop 2)
      String.mk (after.data.takeWhile (fun c => c ≠ '/' && c ≠ '?' && c ≠ '#'))
    else ""

/-! ## `belongs_to_metro` and `is_valid_candidate` (worker.py)

The venue whitelist file (`settings.VENUE_WHITELISTS_PATH`) is modelled as
an injected map `venueWhitelists : String → List String` from metro name to
the configured venue list; `date.today()` is an injected `(y, m, d)`. -/

def belongs_to_metro (venueWhitelists : String → List String)
    (city venue metro : String) : Bool :=
  if city = "" && venue = "" then false
  else
    let tokens := METRO_TOKENS metro
    -- any token, lower-cased, as a substring of the lower-cased city
    if city ≠ "" && tokens.any (fun t => strContains (pyLower city) (pyLower t)) then
      true
    -- `venue in venue_whitelist`: verbatim, case-sensitive list membership
    else if venue ≠ "" && (venueWhitelists metro).contains venue then true
    else false

def is_valid_candidate (today : Nat × Nat × Nat)
    (venueWhitelists : String → List String) (metro : String)
    (candidate : Candidate) : Bool :=
  match strptimeYMD candidate.date_iso with
  | none => false  -- strptime raised: not a past date
  | some (y, m, d) =>
    if daysFromCivil y m d > daysFromCivil today.1 today.2.1 today.2.2 then
      false  -- candidate_date > date.today()
    else if candidate.canceled then false
    else belongs_to_metro venueWhitelists candidate.city candidate.venue metro

/-! ## Stable descending sorts

Python `list.sort(key=k, reverse=True)` is a stable sort, descending on the
key; any stable descending sort computes the same list, here realized as an
insertion sort that inserts each element before the first position whose key
is not larger. -/

def insertDescBy {K : Type} [LinearOrder K] (key : Candidate → K)
    (x : Candidate) : List Candidate → List Candidate
  | [] => [x]
  | y :: ys =>
    if key x < key y then y :: insertDescBy key x ys else x :: y :: ys

def sortDescBy {K : Type} [LinearOrder K] (key : Candidate → K) :
    List Candidate → List Candidate
  | [] => []
  | x :: xs => insertDescBy key x (sortDescBy key xs)

/-- Python `valid_candidates.sort(key=lambda x: x.date_iso, reverse=True)`.
Python string comparison is lexicographic on code points, which is the
lexicographic order on the character list of the string; the key is taken
as that list so that comparisons compute. -/
def sortDateDesc : List Candidate → List Candidate :=
  sortDescBy (fun c => c.date_iso.data)

/-- Python `sort(key=lambda x: SOURCE_PRECEDENCE.get(x.source_type, 0), reverse=True)`. -/
def sortPrecDesc : List Candidate → List Candidate :=
  sortDescBy (fun c => sourcePrecedence c.source_type)

/-- The near-tie date test of `select_latest_candidates`: both dates are
re-parsed with strptime and compared with an inclusive 3-day window; a parse
failure (`except`) skips the candidate. -/
def withinNearTie (dateIso latestDate : String) : Bool :=
  match strptimeYMD dateIso, strptimeYMD latestDate with
  | some (y, m, d), some (ly, lm, ld) =>
    (daysFromCivil y m d - daysFromCivil ly lm ld).natAbs ≤ 3
  | _, _ => false

/-- Final tie-breaker test: `candidate.venue and candidate.venue.lower() in
candidate.snippet.lower()`. -/
def venueInSnippet (c : Candidate) : Bool :=
  c.venue ≠ "" && strContains (pyLower c.snippet) (pyLower c.venue)

/-- Python `select_latest_candidates` (worker.py). -/
def select_latest_candidates (today : Nat × Nat × Nat)
    (venueWhitelists : String → List String)
    (candidates : List Candidate) (metro : String) :
    Option Candidate × List Candidate × List String :=
  let valid := candidates.filter (is_valid_candidate today venueWhitelists metro)
  match sortDateDesc valid with
  | [] => (none, [], ["no_valid_candidates"])  -- `if not valid_candidates`
  | top :: restSorted =>
    let sorted := top :: restSorted
    let latest_date := top.date_iso
    let latest_candidates := sorted.filter (fun c => c.date_iso = latest_date)
    match latest_candidates with
    | [lc] =>  -- len(latest_candidates) == 1
      let near_tie := lc :: restSorted.filter
        (fun c => withinNearTie c.date_iso latest_date)
      if 1 < near_tie.length then
        match sortPrecDesc near_tie with
        | winner :: _ =>
          (some winner,
           (sorted.take 4).filter (fun c => decide (c ≠ winner)),
           ["latest_date", "near_tie_precedence"])
        | [] => (none, [], ["no_valid_candidates"])  -- unreachable
      else
        (some lc, restSorted.take 3, ["latest_date"])  -- valid_candidates[1:4]
    | lcs =>  -- exact-date tie (len ≠ 1; lcs = [] is unreachable)
      let lsort := sortPrecDesc lcs
      match lsort.find? venueInSnippet with
      | some cand =>
        (some cand,
         (sorted.take 4).filter (fun c => decide (c ≠ cand)),
         ["latest_date", "precedence", "venue_tiebreaker"])
      | none =>
        match lsort with
        | winner :: _ =>
          (some winner,
           (sorted.take 4).filter (fun c => decide (c ≠ winner)),
           ["latest_date", "precedence"])
        | [] => (none, [], ["no_valid_candidates"])  -- unreachable

/-! ## `dedupe_candidates` (worker.py) -/

/-- The deduplication key: `(date_iso, venue.lower().strip() if venue else "",
city.lower().strip() if city else "", urlparse(url).netloc)`. -/
def dedupeKey (c : Candidate) : String × String × String × String :=
  (c.date_iso,
   if c.venue ≠ "" then pyStrip (pyLower c.venue) else "",
   if c.city ≠ "" then pyStrip (pyLower c.city) else "",
   urlNetloc c.url)

def dedupeAux (seen : List (String × String × String × String)) :
    List Candidate → List Candidate
  | [] => []
  | c :: t =>
    if seen.contains (dedupeKey c) then dedupeAux seen t
    else c :: dedupeAux (dedupeKey c :: seen) t

def dedupe_candidates (candidates : List Candidate) : List Candidate :=
  dedupeAux [] candidates

/-! ## Parsed document tree

The BeautifulSoup tree is modelled as elements (tag name, attributes,
children) and text nodes.  `bs4.Tag.find`/`find_all` search descendants in
document order (excluding the tag itself); `get_text(" ", strip=True)` joins
the stripped non-empty text descendants with the separator.  Parent pointers
are modelled by passing a date anchor together with its chain of ancestors
(innermost first), as produced by a real tree. -/

inductive HNode where
  | text (s : String)
  | elem (name : String) (attrs : List (String × String)) (children : List HNode)
deriving Repr

mutual

/-- All text-node strings of a subtree in document order (`tag.strings`). -/
def textPieces : HNode → List String
  | .text s => [s]
  | .elem _ _ cs => textPiecesL cs

def textPiecesL : List HNode → List String
  | [] => []
  | c :: cs => textPieces c ++ textPiecesL cs

end

/-- Python `tag.get_text(" ", strip=True)`. -/
def getTextSp (n : HNode) : String :=
  String.intercalate " " (((textPieces n).map pyStrip).filter (· ≠ ""))

mutual

/-- All proper descendants in document order (what `find`/`find_all` scan). -/
def descendants : HNode → List HNode
  | .text _ => []
  | .elem _ _ cs => descendantsL cs

def descendantsL : List HNode → List HNode
  | [] => []
  | c :: cs => c :: descendants c ++ descendantsL cs

end

/-- Attribute lookup on an element. -/
def attrGet (n : HNode) (key : String) : Option String :=
  match n with
  | .elem _ attrs _ => ((attrs.find? (fun p => p.1 = key)).map Prod.snd)
  | .text _ => none

def isElemNamed (name : String) (n : HNode) : Bool :=
  match n with
  | .elem nm _ _ => nm = name
  | .text _ => false

/-- Python `row.find_all("a", href=True)` in document order. -/
def anchorsWithHref (n : HNode) : List HNode :=
  (descendants n).filter
    (fun d => isElemNamed "a" d && (attrGet d "href").isSome)

/-- Python `re.search(r"\blocation\b", cls, re.I)` on one class token. -/
def locationWordAux (prevWord : Bool) : List Char → Bool
  | l@(c :: t) =>
    (!prevWord && ['l', 'o', 'c', 'a', 't', 'i', 'o', 'n'].isPrefixOf (l.map Char.toLower)
      && (match l.drop 8 with | [] => true | e :: _ => !isWordChar e))
    || locationWordAux (isWordChar c) t
  | [] => false

/-- bs4 `class_=LOCATION_CLASS_RE`: the regex is tried against each
whitespace-separated class token. -/
def hasLocationClass (n : HNode) : Bool :=
  match attrGet n "class" with
  | none => false
  | some cls => (pySplit cls).any (fun tk => locationWordAux false tk.data)

/-- Python `p.find(class_=LOCATION_CLASS_RE)`: first matching descendant. -/
def findLocationElem (n : HNode) : Option HNode :=
  (descendants n).find? hasLocationClass

/-- The row predicate of `nearest_row`:
`p.find("time") and (p.find("a") or p.find(class_=LOCATION_CLASS_RE))`. -/
def rowPred (p : HNode) : Bool :=
  (descendants p).any (isElemNamed "time")
  && ((descendants p).any (isElemNamed "a") || (findLocationElem p).isSome)

/-- Python `nearest_row` (identical in worker.py and songkick_row_classification.py):
walk up to 6 levels starting at the anchor itself; on failure return the
parent (or the anchor when parentless). -/
def nearest_row (anchor : HNode) (ancestors : List HNode) : HNode :=
  let rec go : Nat → List HNode → Option HNode
    | 0, _ => none
    | _ + 1, [] => none
    | fuel + 1, p :: rest => if rowPred p then some p else go fuel rest
  match go 6 (anchor :: ancestors) with
  | some p => p
  | none => ancestors.headD anchor

/-- Search for `pat` followed by `\d+` (used for `/venues/\d+` and
`/metro-areas/\d+`). -/
def patThenDigitAux (pat : List Char) : List Char → Bool
  | [] => false
  | l@(_ :: t) =>
    (pat.isPrefixOf l && (match l.drop pat.length with
                          | c :: _ => c.isDigit
                          | [] => false))
    || patThenDigitAux pat t

def hrefVenueRe (href : String) : Bool :=
  patThenDigitAux "/venues/".data href.data

def hrefMetroRe (href : String) : Bool :=
  patThenDigitAux "/metro-areas/".data href.data

/-- Python `extract_row_candidate` (worker.py): the pre-classifier row extractor.
The anchor is a `<time>` tag given with its ancestor chain. -/
def extract_row_candidate (duParse : String → Option (Nat × Nat × Nat))
    (anchor : HNode) (ancestors : List HNode) (page_url : String) :
    Option Candidate :=
  let dateFromAttr := match attrGet anchor "datetime" with
    | some d => if d = "" then none else some d  -- `if not date_iso`
    | none => none
  let date? := match dateFromAttr with
    | some d => some d
    | none =>
      let txt := getTextSp anchor
      if txt = "" then none else parse_date duParse txt
  match date? with
  | none => none
  | some date_iso =>
    let row := nearest_row anchor ancestors
    let venue := ((anchorsWithHref row).find?
      (fun a => hrefVenueRe ((attrGet a "href").getD ""))).map getTextSp
    let city := match (anchorsWithHref row).find?
        (fun a => hrefMetroRe ((attrGet a "href").getD "")) with
      | some a => some (getTextSp a)
      | none => (findLocationElem row).map getTextSp
    -- `if not city and not venue: return None` (None or empty both falsy)
    if (city.getD "") = "" && (venue.getD "") = "" then none
    else some
      { date_iso := date_iso
        city := city.getD ""
        venue := venue.getD ""
        url := page_url
        source_type := "songkick"
        source_host := some (urlNetloc page_url)
        snippet := collapseWs (getTextSp row)
        canceled := false }

/-! ## songkick_row_classification.py

Token sets, the `CITY_STATE_RE` matcher, and the improved row extractor.
The pattern `CITY_STATE_RE` is, with `re.I`: a word boundary, a city group
(a letter followed lazily by letters, spaces, dots, apostrophes or hyphens),
a comma, optional whitespace, a state group (NY or CA) at a word boundary,
and an optional `, US` / `, USA` tail; `re.search` semantics: leftmost starting position, and at each
position the lazy `+?` takes the shortest city able to complete the match.
The trailing optional group is greedy and only affects the match end. -/

def NYC_BORO : List String :=
  ["new york", "manhattan", "brooklyn", "bklyn", "queens", "bronx",
   "staten island"]

def SF_CITIES : List String :=
  ["san francisco", "oakland", "berkeley", "san jose", "palo alto",
   "mountain view", "santa clara", "daly city"]

/-- Character class `[A-Za-z .'\-]` of the city group. -/
def cityClassChar (c : Char) : Bool :=
  c.isAlpha || c = ' ' || c = '.' || c.toNat = 39 || c = '-'

/-- Length consumed by the optional `(?:,\s*(?:US|USA))?` (alternative `US`
first, so only `US` is ever consumed), or 0 when it matches empty. -/
def csSuffixLen : List Char → Nat
  | ',' :: r =>
    let w := countWs r
    (match r.drop w with
     | u :: s2 :: _ =>
       if u.toLower = 'u' && s2.toLower = 's' then 1 + w + 2 else 0
     | _ => 0)
  | _ => 0

/-- Match `,\s*(NY|CA)\b(?:,\s*(?:US|USA))?` at the head: consumed length and
the state group (original text). -/
def csFromComma : List Char → Option (Nat × List Char)
  | ',' :: r =>
    let w := countWs r
    (match r.drop w with
     | a :: b :: rest2 =>
       if (a.toLower = 'n' && b.toLower = 'y')
          || (a.toLower = 'c' && b.toLower = 'a') then
         let boundary := match rest2 with
           | [] => true
           | e :: _ => !isWordChar e
         if boundary then some (1 + w + 2 + csSuffixLen rest2, [a, b])
         else none
       else none
     | _ => none)
  | _ => none

/-- Lazy extension of the city group: `acc` is the city so far (length ≥ 2);
first try to complete at the current position, else absorb one more
city-class character. -/
def csCityLoop (acc : List Char) (rest : List Char) :
    Option (List Char × Nat × List Char) :=
  match csFromComma rest with
  | some (clen, st) => some (acc, acc.length + clen, st)
  | none =>
    match rest with
    | c :: r => if cityClassChar c then csCityLoop (acc ++ [c]) r else none
    | [] => none
termination_by rest.length

/-- Attempt a match starting at the head of the list: first character
`[A-Za-z]`, at least one further city-class character. -/
def csTryHere : List Char → Option (List Char × Nat × List Char)
  | a :: b :: r =>
    if a.isAlpha && cityClassChar b then csCityLoop [a, b] r else none
  | _ => none

/-- Scan starting positions left to right; the `\b` before the city requires
the previous character not to be a word character. -/
def csSearchAux (pos : Nat) (prevWord : Bool) :
    List Char → Option (Nat × Nat × String × String)
  | [] => none
  | c :: t =>
    match (if prevWord then none else csTryHere (c :: t)) with
    | some (city, len, st) =>
      some (pos, pos + len, String.mk city, String.mk st)
    | none => csSearchAux (pos + 1) (isWordChar c) t

/-- Model of `CITY_STATE_RE.search(s)`: `(m.start(), m.end(), city group, state group)`. -/
def cityStateSearch (s : String) : Option (Nat × Nat × String × String) :=
  csSearchAux 0 false s.data

/-- Python `classify_city_state_from_text`. -/
def classify_city_state_from_text (txt : String) :
    Option String × Option String :=
  match cityStateSearch txt with
  | none => (none, none)
  | some (_, _, cityRaw, stateRaw) =>
    let city := pyStrip cityRaw
    let state := pyUpper stateRaw
    if state = "NY" then
      if NYC_BORO.contains (pyLower city) then
        (some "NYC", some (city ++ ", " ++ state))
      else (none, some (city ++ ", " ++ state))
    else if state = "CA" then
      if SF_CITIES.contains (pyLower city) then
        (some "SF", some (city ++ ", " ++ state))
      else (none, some (city ++ ", " ++ state))
    else (none, none)

/-- Python `fallback_tokens_to_metro`. -/
def fallback_tokens_to_metro (txt : String) : Option String :=
  let txt_lower := pyLower txt
  if NYC_BORO.any (fun boro => strContains txt_lower boro) then some "NYC"
  else if strContains txt_lower "nyc" && strContains txt_lower " ny " then
    some "NYC"
  else if strContains txt_lower "nyc" then some "NYC"
  else if SF_CITIES.any (fun city => strContains txt_lower city) then some "SF"
  else if strContains txt_lower "bay area"
          && strContains txt_lower "san francisco" then some "SF"
  else none

/-- Python `extract_venue_specific_text`: a bounded window of the row text around
the first occurrence of the venue, widened when a city/state match is found
inside the window.  (Natural subtraction coincides with the Python
`max(0, ...)` clamping.) -/
def extract_venue_specific_text (row : HNode) (venue : String) :
    Option String :=
  if venue = "" then none
  else
    let full_text := getTextSp row
    match strFind (pyLower full_text) (pyLower venue) with
    | none => none
    | some idx =>
      let n := full_text.data.length
      let start0 := idx - 100
      let end0 := min n (idx + venue.data.length + 100)
      let venue_text := strSlice full_text start0 end0
      match cityStateSearch venue_text with
      | some (cs, ce, _, _) =>
        let start1 := (start0 + cs) - 50
        let end1 := min n (start1 + ce + 50)
        some (pyStrip (strSlice full_text start1 end1))
      | none => some (pyStrip venue_text)

/-- Metro slug search `/metro-areas/\d+-(?:us-)?<citySlug>\b` (re.I): after
the digits and hyphen, the optional `us-` backtracks if the city slug does
not follow it. -/
def metroSlugAfterDigits (citySlug : List Char) (l : List Char) : Bool :=
  let afterOpt :=
    if ['u', 's', '-'].isPrefixOf l then
      citySlug.isPrefixOf (l.drop 3)
      && (match l.drop (3 + citySlug.length) with
          | [] => true
          | e :: _ => !isWordChar e)
    else false
  let direct :=
    citySlug.isPrefixOf l
    && (match l.drop citySlug.length with
        | [] => true
        | e :: _ => !isWordChar e)
  afterOpt || direct

def metroSlugHere (citySlug : List Char) (l : List Char) : Bool :=
  "/metro-areas/".data.isPrefixOf l
  && (let rest := l.drop 13
      let ds := rest.takeWhile Char.isDigit
      ds.length ≥ 1
      && (match rest.drop ds.length with
          | '-' :: r => metroSlugAfterDigits citySlug r
          | _ => false))

def metroSlugSearchAux (citySlug : List Char) : List Char → Bool
  | [] => false
  | l@(_ :: t) => metroSlugHere citySlug l || metroSlugSearchAux citySlug t

/-- Model of `NYC_METRO_SLUG_RE.search(href)`. -/
def nycMetroSlug (href : String) : Bool :=
  metroSlugSearchAux "new-york-ny".data (pyLower href).data

/-- Model of `SF_METRO_SLUG_RE.search(href)`. -/
def sfMetroSlug (href : String) : Bool :=
  metroSlugSearchAux "san-francisco-bay-area".data (pyLower href).data

/-- Python `resolve_songkick_metro`: scan the hyperlinks of the row in order. -/
def resolve_songkick_metro (row : HNode) : Option String × Option String :=
  let rec go : List HNode → Option String × Option String
    | [] => (none, none)
    | a :: rest =>
      let href := (attrGet a "href").getD ""
      if nycMetroSlug href then (some "NYC", some (getTextSp a))
      else if sfMetroSlug href then (some "SF", some (getTextSp a))
      else go rest
  go (anchorsWithHref row)

/-- Python `extract_songkick_row_candidate` (songkick_row_classification.py).
The `logger` argument only emits a diagnostic (`songkick_row_debug`) and has
no behavioral effect, so it is not modelled. -/
def extract_songkick_row_candidate (anchor : HNode) (ancestors : List HNode)
    (page_url : String) (sf_venue_whitelist_lower nyc_venue_whitelist_lower :
    List String) : Option Candidate :=
  match attrGet anchor "datetime" with
  | none => none
  | some dt =>
    if dt = "" then none  -- `if not date_iso`
    else
      let date_iso :=
        if strContains dt "T" then
          String.mk (dt.data.takeWhile (fun c => c ≠ 'T'))  -- split("T")[0]
        else dt
      let row := nearest_row anchor ancestors
      -- venue: first hyperlink whose href contains "/venues/" (plain substring)
      let venue := (((anchorsWithHref row).find?
        (fun a => strContains ((attrGet a "href").getD "") "/venues/")).map
          getTextSp).getD ""
      -- 1. metro via slug
      let (metro1, _metroText) := resolve_songkick_metro row
      -- 2. city/state parsing scoped to venue-specific text
      let (metro2, city2) :=
        match metro1 with
        | some m => (some m, none)
        | none =>
          match extract_venue_specific_text row venue with
          | some vst => classify_city_state_from_text vst
          | none => (none, none)
      -- 3. token fallback, same scoping
      let metro3 :=
        match metro2 with
        | some m => some m
        | none =>
          match extract_venue_specific_text row venue with
          | some vst => fallback_tokens_to_metro vst
          | none => none
      -- 4. venue whitelist rescue (NYC first)
      let metro :=
        match metro3 with
        | some m => some m
        | none =>
          if venue ≠ "" then
            if nyc_venue_whitelist_lower.contains (pyLower venue) then some "NYC"
            else if sf_venue_whitelist_lower.contains (pyLower venue) then
              some "SF"
            else none
          else none
      -- default city synthesis (`not city`: None or empty)
      let city3 :=
        if metro = some "NYC" && (city2.getD "") = "" then
          some "New York, NY"
        else if metro = some "SF" && (city2.getD "") = "" then
          some "San Francisco, CA"
        else city2
      let city := city3.getD ""
      -- snippet: venue-scoped text `or` the whitespace-collapsed row text
      let snippet :=
        match extract_venue_specific_text row venue with
        | some s => if s = "" then collapseWs (getTextSp row) else s
        | none => collapseWs (getTextSp row)
      some
        { date_iso := date_iso
          metro := metro
          city := city
          venue := venue
          snippet := snippet
          source_type := "songkick"
          source_host := some "www.songkick.com"
          url := page_url
          canceled := false }

/-! ## Claim-side (specification-side) definitions

These state properties the way the specification words them, for comparison
with the definitions translated from the source. -/

/-- The valid-candidate list of the Selection Engine. -/
def validCandidates (today : Nat × Nat × Nat)
    (venueWhitelists : String → List String) (metro : String)
    (cands : List Candidate) : List Candidate :=
  cands.filter (is_valid_candidate today venueWhitelists metro)

/-- The near-tie set of the specification: all valid candidates within an
inclusive 3-day absolute difference of the latest date (which includes the
latest candidate itself). -/
def nearTieSet (today : Nat × Nat × Nat)
    (venueWhitelists : String → List String) (metro : String)
    (cands : List Candidate) (latestDate : String) : List Candidate :=
  (validCandidates today venueWhitelists metro cands).filter
    (fun c => withinNearTie c.date_iso latestDate)

/-- Metro membership exactly as claim C1 words it: some configured
metro-locality token occurs case-insensitively in the city, OR the venue
matches verbatim but case-insensitively against the venue allow-list. -/
def specMetroMembershipC1 (venueWhitelists : String → List String)
    (city venue metro : String) : Bool :=
  (METRO_TOKENS metro).any (fun t => strContains (pyLower city) (pyLower t))
  || (venueWhitelists metro).any (fun w => pyLower w = pyLower venue)

/-- The remaining validity conditions of claim C1 (date parses, not after
today, not canceled), shared by the claim and the code. -/
def specDateOkC1 (today : Nat × Nat × Nat) (c : Candidate) : Bool :=
  match strptimeYMD c.date_iso with
  | none => false
  | some (y, m, d) =>
    !(daysFromCivil y m d > daysFromCivil today.1 today.2.1 today.2.2)
    && !c.canceled

/-- Character test at a position of a string (false past the end). -/
def charAtIs (s : String) (k : Nat) (p : Char → Bool) : Bool :=
  match s.data[k]? with
  | some c => p c
  | none => false

/-- Claim-side positional description of an embedded `YYYY-MM-DD` shape at
character position `i`: four digits, a dash, two digits, a dash, two
digits. -/
def isoShapeAt (s : String) (i : Nat) : Bool :=
  charAtIs s i Char.isDigit && charAtIs s (i + 1) Char.isDigit
  && charAtIs s (i + 2) Char.isDigit && charAtIs s (i + 3) Char.isDigit
  && charAtIs s (i + 4) (fun c => c = '-')
  && charAtIs s (i + 5) Char.isDigit && charAtIs s (i + 6) Char.isDigit
  && charAtIs s (i + 7) (fun c => c = '-')
  && charAtIs s (i + 8) Char.isDigit && charAtIs s (i + 9) Char.isDigit

/-- The specification-side description of deduplication: keep each list
head and, recursively, the later first occurrences whose key differs from
every earlier one — i.e. the first occurrence per key, in original order. -/
def keepFirstPerKey : List Candidate → List Candidate
  | [] => []
  | c :: t =>
    c :: (keepFirstPerKey t).filter (fun d => decide (dedupeKey d ≠ dedupeKey c))

/-! ## Concrete fixtures used by counterexamples and witnesses -/

/-- A venue whitelist configuration with a single SF venue. -/
def wlFix : String → List String :=
  fun m => if m = "SF" then ["The Fillmore", "The Independent"] else []

/-- A reference "today" for the fixtures. -/
def todayFix : Nat × Nat × Nat := (2024, 6, 1)

/-- A candidate whose venue matches the SF allow-list only up to case. -/
def cLowerVenue : Candidate :=
  { date_iso := "2024-01-15", city := "", venue := "the fillmore",
    url := "https://example.com/a", source_type := "venue",
    snippet := "played the fillmore" }

/-- A bare `<time>` anchor carrying only a datetime attribute. -/
def bareTimeAnchor : HNode :=
  .elem "time" [("datetime", "2023-10-27T20:00:00-0400")] []

/-- A `<time>` anchor with a plain date. -/
def timeAnchorFix : HNode :=
  .elem "time" [("datetime", "2024-05-05")] [.text "May 5, 2024"]

/-- A row holding the time anchor and a venue link. -/
def venueRowFix : HNode :=
  .elem "li" [] [timeAnchorFix,
    .elem "a" [("href", "/venues/123-venue-a")] [.text "Venue A"]]

/-- The candidate the old extractor produces on `venueRowFix`. -/
def c2OldExpected : Candidate :=
  { date_iso := "2024-05-05", city := "", venue := "Venue A",
    url := "https://www.songkick.com/a", source_type := "songkick",
    snippet := "May 5, 2024 Venue A", canceled := false,
    source_host := some "www.songkick.com", metro := none }

/-- The candidate the Songkick classifier produces on `bareTimeAnchor`. -/
def c2SkExpected : Candidate :=
  { date_iso := "2023-10-27", city := "", venue := "",
    url := "https://example.com", source_type := "songkick",
    snippet := "", canceled := false,
    source_host := some "www.songkick.com", metro := none }

/-- A past press candidate in SF (fixture for the selection claims). -/
def cPress : Candidate :=
  { date_iso := "2024-03-15", city := "San Francisco, CA", venue := "Hall C",
    url := "https://press.example.com/1", source_type := "press",
    snippet := "March show" }

/-- A past venue-sourced candidate three days earlier (fixture). -/
def cVenue : Candidate :=
  { date_iso := "2024-03-12", city := "San Francisco, CA", venue := "Hall D",
    url := "https://venue.example.com/2", source_type := "venue",
    snippet := "Earlier show" }

/-- A venue-sourced candidate on the same date as `cPress` (fixture). -/
def cVenueSameDate : Candidate :=
  { date_iso := "2024-03-15", city := "Oakland, CA", venue := "Hall E",
    url := "https://venue.example.com/3", source_type := "venue",
    snippet := "Same day show" }

/-! ## Properties of the stable descending sorts -/

theorem perm_insertDescBy {K : Type} [LinearOrder K] (key : Candidate → K)
    (a : Candidate) (l : List Candidate) :
    List.Perm (insertDescBy key a l) (a :: l) := by
  induction l with
  | nil => simp [insertDescBy]
  | cons y ys ih =>
    simp only [insertDescBy]
    split
    · exact ((ih.cons y).trans (List.Perm.swap a y ys))
    · exact List.Perm.refl _

theorem perm_sortDescBy {K : Type} [LinearOrder K] (key : Candidate → K)
    (l : List Candidate) : List.Perm (sortDescBy key l) l := by
  induction l with
  | nil => simp [sortDescBy]
  | cons x xs ih =>
    exact (perm_insertDescBy key x (sortDescBy key xs)).trans (ih.cons x)

theorem mem_sortDescBy {K : Type} [LinearOrder K] (key : Candidate → K)
    (l : List Candidate) (x : Candidate) :
    x ∈ sortDescBy key l ↔ x ∈ l :=
  (perm_sortDescBy key l).mem_iff

/-- Descending sortedness on the key. -/
def KeySortedDesc {K : Type} [LinearOrder K] (key : Candidate → K)
    (l : List Candidate) : Prop :=
  List.Sorted (fun a b => key b ≤ key a) l

theorem sorted_insertDescBy {K : Type} [LinearOrder K] (key : Candidate → K)
    (a : Candidate) (l : List Candidate) (h : KeySortedDesc key l) :
    KeySortedDesc key (insertDescBy key a l) := by
  induction l with
  | nil => simp [insertDescBy, KeySortedDesc]
  | cons y ys ih =>
    rw [KeySortedDesc, List.sorted_cons] at h
    obtain ⟨hy, hys⟩ := h
    simp only [insertDescBy]
    split
    · rename_i hlt
      rw [KeySortedDesc, List.sorted_cons]
      refine ⟨?_, ih hys⟩
      intro b hb
      rw [(perm_insertDescBy key a ys).mem_iff, List.mem_cons] at hb
      rcases hb with rfl | hb
      · exact le_of_lt hlt
      · exact hy b hb
    · rename_i hnlt
      rw [KeySortedDesc, List.sorted_cons]
      refine ⟨?_, ?_⟩
      · intro b hb
        rw [List.mem_cons] at hb
        rcases hb with rfl | hb
        · exact le_of_not_lt hnlt
        · exact le_trans (hy b hb) (le_of_not_lt hnlt)
      · rw [List.sorted_cons]
        exact ⟨hy, hys⟩

theorem sorted_sortDescBy {K : Type} [LinearOrder K] (key : Candidate → K)
    (l : List Candidate) : KeySortedDesc key (sortDescBy key l) := by
  induction l with
  | nil => simp [sortDescBy, KeySortedDesc]
  | cons x xs ih => exact sorted_insertDescBy key x _ ih

theorem head_key_max {K : Type} [LinearOrder K] (key : Candidate → K)
    (w : Candidate) (rest : List Candidate)
    (h : KeySortedDesc key (w :: rest)) :
    ∀ x ∈ w :: rest, key x ≤ key w := by
  rw [KeySortedDesc, List.sorted_cons] at h
  intro x hx
  rw [List.mem_cons] at hx
  rcases hx with rfl | hx
  · exact le_refl _
  · exact h.1 x hx

/-- In a descending-sorted list, a `find?` hit has maximal key among the
elements satisfying the predicate. -/
theorem find?_key_max {K : Type} [LinearOrder K] (key : Candidate → K)
    (p : Candidate → Bool) :
    ∀ (l : List Candidate), KeySortedDesc key l →
      ∀ c, l.find? p = some c → ∀ x ∈ l, p x = true → key x ≤ key c := by
  intro l
  induction l with
  | nil => intro _ c hc; simp [List.find?] at hc
  | cons h t ih =>
    intro hs c hc x hx hpx
    by_cases hph : p h = true
    · rw [List.find?_cons_of_pos _ hph] at hc
      cases hc
      exact head_key_max key _ _ hs x hx
    · rw [List.find?_cons_of_neg _ (by simpa using hph)] at hc
      rw [List.mem_cons] at hx
      rcases hx with rfl | hx
      · exact absurd hpx hph
      · exact ih ((List.sorted_cons.mp hs).2) c hc x hx hpx

theorem sortDescBy_eq_nil_iff {K : Type} [LinearOrder K] (key : Candidate → K)
    (l : List Candidate) : sortDescBy key l = [] ↔ l = [] := by
  constructor
  · intro h
    have := (perm_sortDescBy key l).length_eq
    rw [h] at this
    exact List.eq_nil_of_length_eq_zero this.symm
  · intro h; rw [h]; rfl

/-! ## Properties of `dedupe_candidates` -/

theorem mem_of_mem_keepFirstPerKey {d : Candidate} :
    ∀ {l : List Candidate}, d ∈ keepFirstPerKey l → d ∈ l := by
  intro l
  induction l with
  | nil => simp [keepFirstPerKey]
  | cons c t ih =>
    intro hd
    rw [keepFirstPerKey, List.mem_cons] at hd
    rcases hd with rfl | hd
    · exact List.mem_cons_self _ _
    · exact List.mem_cons_of_mem _ (ih (List.mem_of_mem_filter hd))

theorem keepFirstPerKey_filter (p : Candidate → Bool)
    (hp : ∀ a b, dedupeKey a = dedupeKey b → p a = p b) :
    ∀ l, (keepFirstPerKey l).filter p = keepFirstPerKey (l.filter p) := by
  intro l
  induction l with
  | nil => simp [keepFirstPerKey]
  | cons c t ih =>
    rw [keepFirstPerKey, List.filter_cons, List.filter_cons]
    by_cases hpc : p c = true
    · simp only [hpc, if_pos]
      rw [keepFirstPerKey, List.filter_filter, ← ih, List.filter_filter]
      congr 2
      funext d
      rw [Bool.and_comm]
    · simp only [hpc, Bool.false_eq_true, not_false_iff, if_neg]
      rw [List.filter_filter, ← ih]
      have : ∀ d ∈ keepFirstPerKey t,
          (p d && decide (dedupeKey d ≠ dedupeKey c)) = p d := by
        intro d _
        by_cases hpd : p d = true
        · have hkey : dedupeKey d ≠ dedupeKey c := by
            intro hk
            rw [hp d c hk] at hpd
            exact hpc hpd
          simp [hpd, hkey]
        · simp [Bool.eq_false_iff.mpr hpd]
      calc (keepFirstPerKey t).filter
            (fun d => p d && decide (dedupeKey d ≠ dedupeKey c))
          = (keepFirstPerKey t).filter p := List.filter_congr this
        _ = (keepFirstPerKey t).filter p := rfl

theorem keepFirstPerKey_idem (l : List Candidate) :
    keepFirstPerKey (keepFirstPerKey l) = keepFirstPerKey l := by
  induction l with
  | nil => simp [keepFirstPerKey]
  | cons c t ih =>
    have hcong : ∀ a b, dedupeKey a = dedupeKey b →
        (fun d => decide (dedupeKey d ≠ dedupeKey c)) a
          = (fun d => decide (dedupeKey d ≠ dedupeKey c)) b := by
      intro a b h; simp [h]
    show keepFirstPerKey (c :: (keepFirstPerKey t).filter
          (fun d => decide (dedupeKey d ≠ dedupeKey c)))
        = c :: (keepFirstPerKey t).filter
          (fun d => decide (dedupeKey d ≠ dedupeKey c))
    rw [keepFirstPerKey]
    congr 1
    rw [← keepFirstPerKey_filter _ hcong, ih, List.filter_filter]
    congr 1
    funext d
    exact Bool.and_self _

theorem dedupeAux_eq_keepFirst (l : List Candidate) :
    ∀ seen, dedupeAux seen l
      = keepFirstPerKey (l.filter (fun c => !seen.contains (dedupeKey c))) := by
  induction l with
  | nil => intro seen; simp [dedupeAux, keepFirstPerKey]
  | cons c t ih =>
    intro seen
    by_cases hc : seen.contains (dedupeKey c) = true
    · rw [dedupeAux, if_pos hc, List.filter_cons]
      simp only [hc, Bool.not_true, Bool.false_eq_true, not_false_iff, if_neg]
      exact ih seen
    · rw [dedupeAux, if_neg hc, List.filter_cons]
      have hc0 : seen.contains (dedupeKey c) = false := Bool.eq_false_iff.mpr hc
      have hc' : (!seen.contains (dedupeKey c)) = true := by rw [hc0]; rfl
      simp only [hc', if_pos]
      rw [keepFirstPerKey, ih (dedupeKey c :: seen)]
      congr 1
      rw [keepFirstPerKey_filter (fun d => decide (dedupeKey d ≠ dedupeKey c))
        (by intro a b h; simp [h]), List.filter_filter]
      congr 1
      apply List.filter_congr
      intro d _
      show (!(dedupeKey c :: seen).contains (dedupeKey d))
        = (decide (dedupeKey d ≠ dedupeKey c) && !seen.contains (dedupeKey d))
      rw [List.contains_cons]
      by_cases h1 : dedupeKey d = dedupeKey c <;>
        by_cases h2 : seen.contains (dedupeKey d) = true <;>
          simp [h1, h2]

theorem dedupe_eq_keepFirstPerKey (l : List Candidate) :
    dedupe_candidates l = keepFirstPerKey l := by
  rw [dedupe_candidates, dedupeAux_eq_keepFirst]
  congr 1
  apply List.filter_eq_self.mpr
  intro a _
  simp [List.contains]

theorem keepFirstPerKey_sublist (l : List Candidate) :
    (keepFirstPerKey l).Sublist l := by
  induction l with
  | nil => simp [keepFirstPerKey]
  | cons c t ih =>
    rw [keepFirstPerKey]
    exact ((List.filter_sublist _).trans ih).cons₂ c

/-! ## Digit-character lemmas for the strftime rendering -/

theorem digitChar_isDigit (k : Nat) (h : k < 10) : (digitChar k).isDigit = true := by
  interval_cases k <;> decide

theorem digitVal_digitChar (k : Nat) (h : k < 10) : digitVal (digitChar k) = k := by
  interval_cases k <;> decide

theorem formatYMD_data (y m d : Nat) :
    (formatYMD y m d).data
      = [digitChar (y / 1000 % 10), digitChar (y / 100 % 10),
         digitChar (y / 10 % 10), digitChar (y % 10), '-',
         digitChar (m / 10 % 10), digitChar (m % 10), '-',
         digitChar (d / 10 % 10), digitChar (d % 10)] := by
  simp [formatYMD, pad4, pad2, String.data_append]

/-- Dates rendered by strftime parse back through the sanity-check regex. -/
theorem isoPrefixParse_formatYMD (y m d : Nat)
    (hy : y ≤ 9999) (hm : m ≤ 99) (hd : d ≤ 99) :
    isoPrefixParse (formatYMD y m d) = some (y, m, d) := by
  have h10 : ∀ n : Nat, n % 10 < 10 := fun n => Nat.mod_lt _ (by norm_num)
  rw [isoPrefixParse, formatYMD_data]
  simp only [List.take, List.nil_append]
  simp only [digitChar_isDigit _ (h10 _), Bool.and_self, Bool.true_and,
    Bool.and_true, if_pos, decide_True, reduceIte]
  simp only [digitVal_digitChar _ (h10 _)]
  congr 1
  refine Prod.ext ?_ (Prod.ext ?_ ?_) <;> simp <;> omega

/-! ## Claim theorems -/

/-- C8: for every candidate list `x`, `dedupe(dedupe(x)) = dedupe(x)`, and
`dedupe(x)` is the subsequence of `x` keeping exactly the first occurrence
per key (date, lower-trimmed venue or empty, lower-trimmed city or empty,
URL host) in original order, dropping later duplicates without merging
fields. -/
theorem C8_dedupe_idempotent_first_occurrence (x : List Candidate) :
    dedupe_candidates (dedupe_candidates x) = dedupe_candidates x
    ∧ dedupe_candidates x = keepFirstPerKey x
    ∧ (dedupe_candidates x).Sublist x := by
  refine ⟨?_, dedupe_eq_keepFirstPerKey x, ?_⟩
  · rw [dedupe_eq_keepFirstPerKey, dedupe_eq_keepFirstPerKey,
      keepFirstPerKey_idem]
  · rw [dedupe_eq_keepFirstPerKey]
    exact keepFirstPerKey_sublist x

/-- C9: in the token-fallback classification stage, a window text whose
lowercase form contains the soft alias token "nyc", no NYC borough/city
token and no SF city token classifies as NYC — even without a space-padded
" ny " state-code substring. -/
theorem C9_bare_nyc_alias_accepted (txt : String)
    (h1 : strContains (pyLower txt) "nyc" = true)
    (h2 : ∀ boro ∈ NYC_BORO, strContains (pyLower txt) boro = false)
    (_h3 : ∀ city ∈ SF_CITIES, strContains (pyLower txt) city = false) :
    fallback_tokens_to_metro txt = some "NYC" := by
  have hb : (NYC_BORO.any (fun boro => strContains (pyLower txt) boro)) = false := by
    rw [List.any_eq_false]
    intro boro hbm
    simp [h2 boro hbm]
  rw [fallback_tokens_to_metro]
  simp only [hb, h1, Bool.true_and, Bool.false_eq_true, if_false]
  cases hny : strContains (pyLower txt) " ny " <;> simp

/-- Witness for C9 at a concrete window text with no state code nearby. -/
theorem C9_witness :
    strContains (pyLower "NYC show tonight") "nyc" = true
    ∧ strContains (pyLower "NYC show tonight") " ny " = false
    ∧ fallback_tokens_to_metro "NYC show tonight" = some "NYC" :=
  ⟨by decide, by decide,
    C9_bare_nyc_alias_accepted "NYC show tonight" (by decide) (by decide)
      (by decide)⟩

/-- C6: on canonical zero-padded YYYY-MM-DD renderings, validateSanity is
true iff `1900 ≤ year ≤ currentYear+2`, `1 ≤ month ≤ 12` and
`1 ≤ day ≤ 31`, with no month-length cross-check. -/
theorem C6_validate_sanity_iff (currentYear y m d : Nat)
    (hy : y ≤ 9999) (hm : m ≤ 99) (hd : d ≤ 99) :
    validate_date_sanity currentYear (formatYMD y m d) = true
      ↔ (1900 ≤ y ∧ y ≤ currentYear + 2 ∧ 1 ≤ m ∧ m ≤ 12
         ∧ 1 ≤ d ∧ d ≤ 31) := by
  rw [validate_date_sanity, isoPrefixParse_formatYMD y m d hy hm hd]
  dsimp only
  split_ifs with hA hB hC <;> simp_all <;> omega

/-- Witness for C6: a February 31st passes the sanity check. -/
theorem C6_witness :
    formatYMD 2024 2 31 = "2024-02-31"
    ∧ validate_date_sanity 2025 "2024-02-31" = true := by
  refine ⟨by decide, ?_⟩
  have h := (C6_validate_sanity_iff 2025 2024 2 31 (by omega) (by omega)
    (by omega)).mpr (by omega)
  rwa [show formatYMD 2024 2 31 = "2024-02-31" from by decide] at h

/-- Bridge: the sanity-check prefix regex succeeds exactly on strings whose
first ten characters have the positional YYYY-MM-DD shape. -/
theorem isoPrefixParse_isSome_eq_isoShapeAt (s : String) :
    (isoPrefixParse s).isSome = isoShapeAt s 0 := by
  rcases hs : s.data with _ | ⟨a, _ | ⟨b, _ | ⟨c, _ | ⟨d, _ | ⟨e, _ | ⟨f,
    _ | ⟨g, _ | ⟨h, _ | ⟨i, _ | ⟨j, rest⟩⟩⟩⟩⟩⟩⟩⟩⟩⟩ <;>
    simp only [isoPrefixParse, isoShapeAt, charAtIs, hs,
      List.getElem?_cons_zero, List.getElem?_cons_succ, List.getElem?_nil] <;>
    first
    | (split <;> rename_i hcond <;> simp_all)
    | simp

/-- C10: validate_date_sanity judges only a 10-character prefix — every
string beginning with an in-bounds zero-padded YYYY-MM-DD passes regardless
of trailing content, and every string not beginning with four digits, dash,
two digits, dash, two digits fails even when the numeric values are in
bounds. -/
theorem C10_validate_sanity_prefix_only (currentYear : Nat) :
    (∀ (a b c d e f g h : Char) (rest : List Char),
      a.isDigit = true → b.isDigit = true → c.isDigit = true →
      d.isDigit = true → e.isDigit = true → f.isDigit = true →
      g.isDigit = true → h.isDigit = true →
      (1900 ≤ ((digitVal a * 10 + digitVal b) * 10 + digitVal c) * 10 + digitVal d
       ∧ ((digitVal a * 10 + digitVal b) * 10 + digitVal c) * 10 + digitVal d ≤ currentYear + 2
       ∧ 1 ≤ digitVal e * 10 + digitVal f ∧ digitVal e * 10 + digitVal f ≤ 12
       ∧ 1 ≤ digitVal g * 10 + digitVal h ∧ digitVal g * 10 + digitVal h ≤ 31) →
      validate_date_sanity currentYear
        (String.mk ([a, b, c, d, '-', e, f, '-', g, h] ++ rest)) = true)
    ∧ (∀ s : String, isoShapeAt s 0 = false →
        validate_date_sanity currentYear s = false) := by
  constructor
  · intro a b c d e f g h rest ha hb hc hd he hf hg hh hbounds
    rw [validate_date_sanity]
    have hparse : isoPrefixParse (String.mk ([a, b, c, d, '-', e, f, '-', g, h] ++ rest))
        = some (((digitVal a * 10 + digitVal b) * 10 + digitVal c) * 10 + digitVal d,
                digitVal e * 10 + digitVal f,
                digitVal g * 10 + digitVal h) := by
      rw [isoPrefixParse]
      simp [ha, hb, hc, hd, he, hf, hg, hh]
    rw [hparse]
    dsimp only
    split_ifs with hA hB hC <;> simp_all
  · intro s hshape
    rw [validate_date_sanity]
    cases hp : isoPrefixParse s with
    | none => rfl
    | some v =>
      exfalso
      have := isoPrefixParse_isSome_eq_isoShapeAt s
      rw [hp, hshape] at this
      simp at this

/-- Witness for C10: a full ISO datetime passes, and an unpadded date is
rejected although its numeric values are in bounds. -/
theorem C10_witness :
    validate_date_sanity 2023 "2023-10-27T20:00:00-0400" = true
    ∧ isoShapeAt "2024-1-5" 0 = false
    ∧ validate_date_sanity 2023 "2024-1-5" = false := by
  refine ⟨?_, by decide, (C10_validate_sanity_prefix_only 2023).2 "2024-1-5" (by decide)⟩
  have h := (C10_validate_sanity_prefix_only 2023).1
    '2' '0' '2' '3' '1' '0' '2' '7' "T20:00:00-0400".data
    (by decide) (by decide) (by decide) (by decide) (by decide) (by decide)
    (by decide) (by decide) (by decide)
  rwa [show String.mk (['2', '0', '2', '3', '-', '1', '0', '-', '2', '7']
    ++ "T20:00:00-0400".data) = "2023-10-27T20:00:00-0400" from by decide] at h

/-! ## Lemmas connecting the embedded-date scanner to the positional shape -/

theorem shape_drop (s : String) (i : Nat) :
    isoShapeAt (String.mk (s.data.drop i)) 0 = isoShapeAt s i := by
  simp [isoShapeAt, charAtIs, List.getElem?_drop]

theorem shape_cons_succ (c : Char) (t : List Char) (i : Nat) :
    isoShapeAt (String.mk (c :: t)) (i + 1) = isoShapeAt (String.mk t) i := by
  have h1 := shape_drop (String.mk (c :: t)) (i + 1)
  have h2 := shape_drop (String.mk t) i
  rw [← h1, ← h2]
  rfl

theorem shape_nil (i : Nat) : isoShapeAt (String.mk []) i = false := by
  simp [isoShapeAt, charAtIs]

theorem isoShapeHere_eq_ite (l : List Char) :
    isoShapeHere l
      = if isoShapeAt (String.mk l) 0 = true then some (l.take 10) else none := by
  rcases l with _ | ⟨a, _ | ⟨b, _ | ⟨c, _ | ⟨d, _ | ⟨e, _ | ⟨f,
    _ | ⟨g, _ | ⟨h, _ | ⟨i, _ | ⟨j, rest⟩⟩⟩⟩⟩⟩⟩⟩⟩⟩ <;>
    simp only [isoShapeHere, isoShapeAt, charAtIs,
      List.getElem?_cons_zero, List.getElem?_cons_succ, List.getElem?_nil,
      List.take] <;>
    (split <;> rename_i hcond <;> simp_all)

theorem findIsoSub_of_first_shape :
    ∀ (l : List Char) (i : Nat),
      isoShapeAt (String.mk l) i = true →
      (∀ j < i, isoShapeAt (String.mk l) j = false) →
      findIsoSub l = some (String.mk ((l.drop i).take 10)) := by
  intro l
  induction l with
  | nil =>
    intro i hi _
    rw [shape_nil] at hi
    cases hi
  | cons c t ih =>
    intro i hi hj
    cases i with
    | zero =>
      rw [findIsoSub, isoShapeHere_eq_ite, if_pos hi]
      rfl
    | succ i0 =>
      have h0 : isoShapeAt (String.mk (c :: t)) 0 = false :=
        hj 0 (Nat.succ_pos _)
      rw [findIsoSub, isoShapeHere_eq_ite, if_neg (by simp [h0])]
      rw [shape_cons_succ] at hi
      have hj' : ∀ j < i0, isoShapeAt (String.mk t) j = false := by
        intro j hjlt
        rw [← shape_cons_succ c]
        exact hj (j + 1) (Nat.succ_lt_succ hjlt)
      rw [ih i0 hi hj']
      rfl

theorem shape_false_of_len_le (s : String) (j : Nat)
    (h : s.data.length ≤ j) : isoShapeAt s j = false := by
  have : s.data[j]? = none := by
    rw [List.getElem?_eq_none_iff]
    exact h
  simp [isoShapeAt, charAtIs, this]

theorem findIsoSub_eq_none :
    ∀ l : List Char,
      (∀ j < l.length, isoShapeAt (String.mk l) j = false) →
      findIsoSub l = none := by
  intro l
  induction l with
  | nil => intro _; rfl
  | cons c t ih =>
    intro hj
    have h0 : isoShapeAt (String.mk (c :: t)) 0 = false :=
      hj 0 (Nat.succ_pos _)
    rw [findIsoSub, isoShapeHere_eq_ite, if_neg (by simp [h0])]
    apply ih
    intro j hjlt
    rw [← shape_cons_succ c]
    exact hj (j + 1) (by simpa using Nat.succ_lt_succ hjlt)

theorem string_ne_empty_of_shape (s : String) (i : Nat)
    (h : isoShapeAt s i = true) : s ≠ "" := by
  intro he
  rw [he] at h
  have : isoShapeAt "" i = false := shape_false_of_len_le "" i (by simp)
  rw [this] at h
  cases h

/-- C7: parse returns the first embedded `YYYY-MM-DD` substring verbatim
when one exists, for any behavior of the permissive natural-language
parser; when none exists it returns none whenever the cleaned text is only
a 4-digit year, has no month/day indicator, or has month/day indicators but
no 4-digit year; in particular `parse "Event on 2024-01-15"` is
`"2024-01-15"`, and `parse "2024"` and `parse "January"` are none. -/
theorem C7_parse_date_strategies (duParse : String → Option (Nat × Nat × Nat)) :
    (∀ (s : String) (i : Nat),
      isoShapeAt s i = true →
      (∀ j < i, isoShapeAt s j = false) →
      parse_date duParse s = some (String.mk ((s.data.drop i).take 10)))
    ∧ (∀ s : String,
      (∀ j < s.data.length, isoShapeAt s j = false) →
      (isFourDigitYearOnly (pyStrip (cleanText s)) = true
        ∨ (hasMonthIndicator (cleanText s) = false
           ∧ hasDayIndicator (cleanText s) = false)
        ∨ ((hasMonthIndicator (cleanText s) || hasDayIndicator (cleanText s)) = true
           ∧ hasYearIndicator (cleanText s) = false)) →
      parse_date duParse s = none)
    ∧ parse_date duParse "Event on 2024-01-15" = some "2024-01-15"
    ∧ parse_date duParse "2024" = none
    ∧ parse_date duParse "January" = none := by
  have hpos : ∀ (s : String) (i : Nat),
      isoShapeAt s i = true →
      (∀ j < i, isoShapeAt s j = false) →
      parse_date duParse s = some (String.mk ((s.data.drop i).take 10)) := by
    intro s i hi hj
    rw [parse_date, if_neg (string_ne_empty_of_shape s i hi)]
    rw [findIsoSub_of_first_shape s.data i hi hj]
  have hneg : ∀ s : String,
      (∀ j < s.data.length, isoShapeAt s j = false) →
      (isFourDigitYearOnly (pyStrip (cleanText s)) = true
        ∨ (hasMonthIndicator (cleanText s) = false
           ∧ hasDayIndicator (cleanText s) = false)
        ∨ ((hasMonthIndicator (cleanText s) || hasDayIndicator (cleanText s)) = true
           ∧ hasYearIndicator (cleanText s) = false)) →
      parse_date duParse s = none := by
    intro s hsh hcond
    by_cases hse : s = ""
    · rw [parse_date, if_pos hse]
    · rw [parse_date, if_neg hse, findIsoSub_eq_none s.data hsh]
      dsimp only
      cases hdu : duParse (cleanText s) with
      | none => rfl
      | some v =>
        obtain ⟨y, m, d⟩ := v
        dsimp only
        split_ifs with h1 h2 h3
        · rfl
        · rfl
        · rfl
        · exfalso
          rcases hcond with hc | ⟨hcm, hcd⟩ | ⟨hcmd, hcy⟩
          · exact h1 hc
          · exact h2 (by rw [hcm, hcd]; simp)
          · exact h3 (by rw [hcmd, hcy]; rfl)
  refine ⟨hpos, hneg, ?_, ?_, ?_⟩
  · have h := hpos "Event on 2024-01-15" 9 (by decide)
      (by decide)
    rwa [show String.mk ((("Event on 2024-01-15" : String).data.drop 9).take 10)
      = "2024-01-15" from by decide] at h
  · exact hneg "2024" (by decide) (Or.inl (by decide))
  · exact hneg "January" (by decide)
      (Or.inr (Or.inr (by constructor <;> decide)))

/-- Witness for C7 instantiating the quantified parts at concrete inputs
and a concrete natural-language parser. -/
theorem C7_witness :
    parse_date (fun _ => none) "Event on 2024-01-15" = some "2024-01-15"
    ∧ parse_date (fun _ => some (2024, 1, 1)) "2024" = none
    ∧ parse_date (fun _ => some (2024, 1, 15)) "January" = none :=
  ⟨(C7_parse_date_strategies (fun _ => none)).2.2.1,
   (C7_parse_date_strategies (fun _ => some (2024, 1, 1))).2.2.2.1,
   (C7_parse_date_strategies (fun _ => some (2024, 1, 15))).2.2.2.2⟩

/-! ## Validity filter (claim C1) -/

theorem strContains_empty_haystack (n : String) (h : n.data ≠ []) :
    strContains "" n = false := by
  show subOccurs n.data [] = false
  rw [subOccurs]
  exact List.isEmpty_eq_false.mpr h

theorem metro_tokens_nonempty (metro : String) :
    ∀ t ∈ METRO_TOKENS metro, (pyLower t).data ≠ [] := by
  intro t ht
  rw [METRO_TOKENS] at ht
  split at ht
  · fin_cases ht <;> decide
  · split at ht
    · fin_cases ht <;> decide
    · simp at ht

theorem belongs_to_metro_iff (wl : String → List String)
    (city venue metro : String) :
    belongs_to_metro wl city venue metro = true ↔
      ((∃ t ∈ METRO_TOKENS metro,
          strContains (pyLower city) (pyLower t) = true)
       ∨ (venue ≠ "" ∧ venue ∈ wl metro)) := by
  rw [belongs_to_metro]
  by_cases hce : city = ""
  · subst hce
    have htok : ∀ t ∈ METRO_TOKENS metro,
        strContains (pyLower "") (pyLower t) = false := by
      intro t ht
      exact strContains_empty_haystack (pyLower t) (metro_tokens_nonempty metro t ht)
    by_cases hve : venue = ""
    · subst hve
      simp only [if_pos]
      constructor
      · intro h; cases h
      · rintro (⟨t, ht, hcont⟩ | ⟨hne, _⟩)
        · rw [htok t ht] at hcont; cases hcont
        · exact absurd rfl hne
    · rw [if_neg (by simp [hve])]
      rw [if_neg (by simp)]
      constructor
      · intro h
        split at h
        · rename_i hv
          simp only [Bool.and_eq_true, decide_eq_true_eq] at hv
          exact Or.inr ⟨hv.1, List.elem_iff.mp hv.2⟩
        · cases h
      · rintro (⟨t, ht, hcont⟩ | ⟨hne, hmem⟩)
        · rw [htok t ht] at hcont; cases hcont
        · rw [if_pos (by simp [hne, hmem])]
  · rw [if_neg (by simp [hce])]
    by_cases hany : (METRO_TOKENS metro).any
        (fun t => strContains (pyLower city) (pyLower t)) = true
    · rw [if_pos (by simp [hce, hany])]
      simp only [true_iff]
      exact Or.inl (by simpa [List.any_eq_true] using hany)
    · rw [if_neg (by simp [hce]; simpa using hany)]
      constructor
      · intro h
        split at h
        · rename_i hv
          simp only [Bool.and_eq_true, decide_eq_true_eq] at hv
          exact Or.inr ⟨hv.1, List.elem_iff.mp hv.2⟩
        · cases h
      · rintro (⟨t, ht, hcont⟩ | ⟨hne, hmem⟩)
        · exact absurd (by simp [List.any_eq_true]; exact ⟨t, ht, hcont⟩) hany
        · rw [if_pos (by simp [hne, hmem])]

/-- Counterexample for C1: a candidate whose venue matches the SF venue
allow-list only case-insensitively (venue "the fillmore", list entry
"The Fillmore") satisfies every condition of the claim — date parses and is
past, not canceled, spec-side metro membership holds — yet the code rejects
it, because `venue in venue_whitelist` is a case-SENSITIVE comparison. -/
theorem C1_counterexample :
    specMetroMembershipC1 wlFix cLowerVenue.city cLowerVenue.venue "SF" = true
    ∧ specDateOkC1 todayFix cLowerVenue = true
    ∧ is_valid_candidate todayFix wlFix "SF" cLowerVenue = false :=
  ⟨by decide, by decide, by decide⟩

/-- C1 (amended): a candidate passes the validity filter iff its date
parses by strptime and is not strictly after today, its canceled flag is
false, and its raw (city, venue) pair satisfies metro membership — a
configured metro-locality token as case-insensitive substring of the city,
OR the venue matching the allow-list verbatim and case-SENSITIVELY; the
precomputed metro field on the candidate is ignored. -/
theorem C1_validity_filter (today : Nat × Nat × Nat)
    (wl : String → List String) (metro : String) (c : Candidate) :
    (is_valid_candidate today wl metro c = true ↔
      ((∃ y m d, strptimeYMD c.date_iso = some (y, m, d)
         ∧ daysFromCivil y m d ≤ daysFromCivil today.1 today.2.1 today.2.2)
       ∧ c.canceled = false
       ∧ ((∃ t ∈ METRO_TOKENS metro,
             strContains (pyLower c.city) (pyLower t) = true)
          ∨ (c.venue ≠ "" ∧ c.venue ∈ wl metro))))
    ∧ (∀ mm : Option String,
        is_valid_candidate today wl metro { c with metro := mm }
          = is_valid_candidate today wl metro c) := by
  constructor
  · rw [is_valid_candidate]
    cases hp : strptimeYMD c.date_iso with
    | none => simp [hp]
    | some v =>
      obtain ⟨y, m, d⟩ := v
      dsimp only
      by_cases hgt : daysFromCivil y m d
          > daysFromCivil today.1 today.2.1 today.2.2
      · rw [if_pos hgt]
        simp only [Bool.false_eq_true, false_iff]
        rintro ⟨⟨y', m', d', hy', hle⟩, -, -⟩
        simp only [Option.some.injEq, Prod.mk.injEq] at hy'
        obtain ⟨rfl, rfl, rfl⟩ := hy'
        omega
      · rw [if_neg hgt]
        by_cases hcanc : c.canceled = true
        · rw [if_pos hcanc]
          simp only [Bool.false_eq_true, false_iff]
          rintro ⟨-, hcf, -⟩
          rw [hcanc] at hcf
          cases hcf
        · rw [if_neg hcanc]
          rw [belongs_to_metro_iff]
          constructor
          · intro h
            exact ⟨⟨y, m, d, rfl, by omega⟩, Bool.eq_false_iff.mpr hcanc, h⟩
          · rintro ⟨-, -, h⟩
            exact h
  · intro mm
    rfl

/-! ## Extractor emission invariant (claim C2) -/

/-- Counterexample for C2: the Songkick row classifier emits a candidate
whose city AND venue are both empty when the row has no venue link, no
metro link and no classifiable text — so the invariant "at least one of
city/venue is non-empty on emission" fails on that extraction path. -/
theorem C2_counterexample :
    extract_songkick_row_candidate bareTimeAnchor [] "https://example.com" [] []
      = some { date_iso := "2023-10-27", city := "", venue := "",
               url := "https://example.com", source_type := "songkick",
               snippet := "", canceled := false,
               source_host := some "www.songkick.com", metro := none }
    ∧ ∀ c, extract_songkick_row_candidate bareTimeAnchor [] "https://example.com" [] []
        = some c → ¬(c.city ≠ "" ∨ c.venue ≠ "") := by
  refine ⟨by decide, ?_⟩
  intro c hc
  rw [show extract_songkick_row_candidate bareTimeAnchor [] "https://example.com" [] []
      = some { date_iso := "2023-10-27", city := "", venue := "",
               url := "https://example.com", source_type := "songkick",
               snippet := "", canceled := false,
               source_host := some "www.songkick.com", metro := none }
    from by decide] at hc
  injection hc with hc
  subst hc
  rintro (h | h) <;> exact h rfl

/-- C2 (amended): the old row extractor emits a candidate only when at
least one of city/venue is non-empty and its date is the datetime attribute
verbatim (when present and non-empty) or a successful text parse; the
Songkick row classifier guarantees only that the date comes from a present,
non-empty datetime attribute (date part before any "T") — it may emit
candidates with both city and venue empty. -/
theorem C2_emission_invariant (duParse : String → Option (Nat × Nat × Nat)) :
    (∀ (anchor : HNode) (ancestors : List HNode) (url : String) (c : Candidate),
      extract_row_candidate duParse anchor ancestors url = some c →
        (c.city ≠ "" ∨ c.venue ≠ "")
        ∧ ((∃ dt, attrGet anchor "datetime" = some dt ∧ dt ≠ "" ∧ c.date_iso = dt)
           ∨ (getTextSp anchor ≠ ""
              ∧ parse_date duParse (getTextSp anchor) = some c.date_iso)))
    ∧ (∀ (anchor : HNode) (ancestors : List HNode) (url : String)
        (sw nw : List String) (c : Candidate),
      extract_songkick_row_candidate anchor ancestors url sw nw = some c →
        ∃ dt, attrGet anchor "datetime" = some dt ∧ dt ≠ ""
          ∧ c.date_iso = (if strContains dt "T" then
              String.mk (dt.data.takeWhile (fun ch => ch ≠ 'T')) else dt)) := by
  constructor
  · intro anchor ancestors url c hc
    rw [extract_row_candidate] at hc
    cases hattr : attrGet anchor "datetime" with
    | some dt =>
      rw [hattr] at hc
      dsimp only at hc
      by_cases hdt : dt = ""
      · rw [if_pos hdt] at hc
        dsimp only at hc
        by_cases htxt : getTextSp anchor = ""
        · rw [if_pos htxt] at hc
          cases hc
        · rw [if_neg htxt] at hc
          cases hpd : parse_date duParse (getTextSp anchor) with
          | none => rw [hpd] at hc; cases hc
          | some date_iso =>
            rw [hpd] at hc
            dsimp only at hc
            split at hc
            · cases hc
            · rename_i hguard
              injection hc with hc
              subst hc
              refine ⟨?_, Or.inr ⟨htxt, rfl⟩⟩
              simp only [Bool.and_eq_true, decide_eq_true_eq,
                not_and_or] at hguard
              exact hguard
      · rw [if_neg hdt] at hc
        dsimp only at hc
        split at hc
        · cases hc
        · rename_i hguard
          injection hc with hc
          subst hc
          refine ⟨?_, Or.inl ⟨dt, rfl, hdt, rfl⟩⟩
          simp only [Bool.and_eq_true, decide_eq_true_eq,
            not_and_or] at hguard
          exact hguard
    | none =>
      rw [hattr] at hc
      dsimp only at hc
      by_cases htxt : getTextSp anchor = ""
      · rw [if_pos htxt] at hc
        cases hc
      · rw [if_neg htxt] at hc
        cases hpd : parse_date duParse (getTextSp anchor) with
        | none => rw [hpd] at hc; cases hc
        | some date_iso =>
          rw [hpd] at hc
          dsimp only at hc
          split at hc
          · cases hc
          · rename_i hguard
            injection hc with hc
            subst hc
            refine ⟨?_, Or.inr ⟨htxt, rfl⟩⟩
            simp only [Bool.and_eq_true, decide_eq_true_eq,
              not_and_or] at hguard
            exact hguard
  · intro anchor ancestors url sw nw c hc
    rw [extract_songkick_row_candidate] at hc
    cases hattr : attrGet anchor "datetime" with
    | none => rw [hattr] at hc; cases hc
    | some dt =>
      rw [hattr] at hc
      dsimp only at hc
      by_cases hdt : dt = ""
      · rw [if_pos hdt] at hc
        cases hc
      · rw [if_neg hdt] at hc
        injection hc with hc
        subst hc
        exact ⟨dt, rfl, hdt, rfl⟩

/-- Witness for C2 at concrete rows: the old extractor on a row with a
venue link yields a non-empty venue, and the classifier keeps the date part
of the datetime attribute. -/
theorem C2_witness :
    (∃ c, extract_row_candidate (fun _ => none) timeAnchorFix [venueRowFix]
        "https://www.songkick.com/a" = some c ∧ (c.city ≠ "" ∨ c.venue ≠ ""))
    ∧ (∃ c dt, extract_songkick_row_candidate bareTimeAnchor []
        "https://example.com" [] [] = some c
        ∧ attrGet bareTimeAnchor "datetime" = some dt ∧ dt ≠ "") := by
  constructor
  · obtain ⟨hcv, _⟩ := (C2_emission_invariant (fun _ => none)).1 timeAnchorFix
      [venueRowFix] "https://www.songkick.com/a" c2OldExpected (by decide)
    exact ⟨c2OldExpected, by decide, hcv⟩
  · obtain ⟨dt, hdt, hne, _⟩ := (C2_emission_invariant (fun _ => none)).2
      bareTimeAnchor [] "https://example.com" [] [] c2SkExpected (by decide)
    exact ⟨c2SkExpected, dt, by decide, hdt, hne⟩

/-! ## Selection-engine lemmas (claims C3, C4, C5) -/

theorem strptime_of_valid (today : Nat × Nat × Nat)
    (wl : String → List String) (metro : String) (c : Candidate)
    (h : is_valid_candidate today wl metro c = true) :
    ∃ p, strptimeYMD c.date_iso = some p := by
  rw [is_valid_candidate] at h
  cases hp : strptimeYMD c.date_iso with
  | none => rw [hp] at h; cases h
  | some p => exact ⟨p, rfl⟩

theorem withinNearTie_self (ds : String) (p : Nat × Nat × Nat)
    (h : strptimeYMD ds = some p) : withinNearTie ds ds = true := by
  obtain ⟨y, m, d⟩ := p
  rw [withinNearTie, h]
  simp

theorem length_filter_ne (l : List Candidate) (w : Candidate) :
    (l.filter (fun c => decide (c ≠ w))).length = l.length - l.count w := by
  induction l with
  | nil => rfl
  | cons c t ih =>
    by_cases hc : c = w
    · subst hc
      have hcount : (c :: t).count c = t.count c + 1 := List.count_cons_self c t
      rw [List.filter_cons, if_neg (by simp), hcount, ih]
      simp [Nat.succ_sub_succ]
    · have hcount : (c :: t).count w = t.count w := by
        rw [List.count_cons]
        simp [hc]
      rw [List.filter_cons, if_pos (by simp [hc]), hcount]
      have hle := List.count_le_length w t
      simp only [List.length_cons, ih]
      omega

/-- The single-latest no-near-tie branch: the explicit `valid[1:4]` slice
agrees with cap-then-exclude, because no later valid candidate shares the
latest date and candidate equality compares all fields including the date. -/
theorem take3_eq_filter_take4 (top : Candidate) (rest : List Candidate)
    (hnone : ∀ x ∈ rest, x.date_iso ≠ top.date_iso) :
    rest.take 3 = ((top :: rest).take 4).filter (fun c => decide (c ≠ top)) := by
  rw [List.take_succ_cons, List.filter_cons, if_neg (by simp)]
  symm
  apply List.filter_eq_self.mpr
  intro x hx
  have hmem : x ∈ rest := List.take_subset 3 rest hx
  have : x ≠ top := by
    intro he
    exact hnone x hmem (by rw [he])
  simp [this]

/-- C5 (amended): whenever selection produces a winner, the alternates are
the date-descending valid list capped to 4 entries with every entry equal
to the winner then removed (cap before exclusion); the alternates count is
the capped length minus the number of capped entries equal to the winner
(3 or 4 only when enough distinct valid candidates exist). -/
theorem C5_alternates_cap_before_exclusion
    (today : Nat × Nat × Nat) (wl : String → List String)
    (cands : List Candidate) (metro : String)
    (w : Candidate) (alts : List Candidate) (path : List String)
    (h : select_latest_candidates today wl cands metro = (some w, alts, path)) :
    alts = ((sortDateDesc (validCandidates today wl metro cands)).take 4).filter
        (fun c => decide (c ≠ w))
    ∧ alts.length
        = ((sortDateDesc (validCandidates today wl metro cands)).take 4).length
          - ((sortDateDesc (validCandidates today wl metro cands)).take 4).count w := by
  have main : alts
      = ((sortDateDesc (validCandidates today wl metro cands)).take 4).filter
        (fun c => decide (c ≠ w)) := by
    rw [validCandidates]
    rw [select_latest_candidates] at h
    split at h
    · simp at h
    · rename_i top restSorted heq
      rw [heq]
      dsimp only at h
      split at h
      · -- single member at the latest date
        rename_i lc hfilter
        have htopf : decide (top.date_iso = top.date_iso) = true := by simp
        rw [List.filter_cons, if_pos htopf] at hfilter
        injection hfilter with h1 h2
        subst h1
        split at h
        · -- near-tie precedence branch
          split at h
          · rename_i winner ws hsort
            simp only [Prod.mk.injEq] at h
            obtain ⟨hw, halts, -⟩ := h
            injection hw with hw
            subst hw
            subst halts
            rfl
          · simp at h
        · -- sole winner branch: valid[1:4]
          simp only [Prod.mk.injEq] at h
          obtain ⟨hw, halts, -⟩ := h
          injection hw with hw
          subst hw
          subst halts
          apply take3_eq_filter_take4
          intro x hx
          have := List.filter_eq_nil_iff.mp h2 x hx
          simpa using this
      · -- exact-date tie
        rename_i lcs hne
        split at h
        · rename_i cand hfind
          simp only [Prod.mk.injEq] at h
          obtain ⟨hw, halts, -⟩ := h
          injection hw with hw
          subst hw
          subst halts
          rfl
        · split at h
          · rename_i winner ws hsort
            simp only [Prod.mk.injEq] at h
            obtain ⟨hw, halts, -⟩ := h
            injection hw with hw
            subst hw
            subst halts
            rfl
          · simp at h
  exact ⟨main, by rw [main, length_filter_ne]⟩

/-- Counterexample for C5: with two valid candidates and the winner inside
the capped slice, the selection returns one alternate, not the three the
claim asserts. -/
theorem C5_counterexample :
    select_latest_candidates todayFix wlFix [cPress, cVenue] "SF"
      = (some cVenue, [cPress], ["latest_date", "near_tie_precedence"])
    ∧ cVenue ∈ (sortDateDesc (validCandidates todayFix wlFix "SF"
        [cPress, cVenue])).take 4
    ∧ ([cPress] : List Candidate).length ≠ 3 :=
  ⟨by decide, by decide, by decide⟩

/-- Witness for C5 applying the amended theorem at a concrete selection. -/
theorem C5_witness :
    ([cPress] : List Candidate)
      = ((sortDateDesc (validCandidates todayFix wlFix "SF"
          [cPress, cVenue])).take 4).filter (fun c => decide (c ≠ cVenue))
    ∧ ([cPress] : List Candidate).length
        = ((sortDateDesc (validCandidates todayFix wlFix "SF"
            [cPress, cVenue])).take 4).length
          - ((sortDateDesc (validCandidates todayFix wlFix "SF"
              [cPress, cVenue])).take 4).count cVenue :=
  C5_alternates_cap_before_exclusion todayFix wlFix [cPress, cVenue] "SF"
    cVenue [cPress] ["latest_date", "near_tie_precedence"] (by decide)

/-- C3: on a valid list whose latest date is held by exactly one candidate,
if another valid candidate lies within an inclusive 3-day window of the
latest date then the winner is a maximum-precedence member of the near-tie
set and the decision path is ["latest_date","near_tie_precedence"];
otherwise the sole latest candidate wins with path ["latest_date"]. -/
theorem C3_near_tie_selection (today : Nat × Nat × Nat)
    (wl : String → List String) (metro : String) (cands : List Candidate)
    (top : Candidate) (rest : List Candidate)
    (hs : sortDateDesc (validCandidates today wl metro cands) = top :: rest)
    (huniq : ((validCandidates today wl metro cands).filter
        (fun c => decide (c.date_iso = top.date_iso))).length = 1) :
    (1 < (nearTieSet today wl metro cands top.date_iso).length →
      ∃ w alts, select_latest_candidates today wl cands metro
          = (some w, alts, ["latest_date", "near_tie_precedence"])
        ∧ w ∈ nearTieSet today wl metro cands top.date_iso
        ∧ ∀ x ∈ nearTieSet today wl metro cands top.date_iso,
            sourcePrecedence x.source_type ≤ sourcePrecedence w.source_type)
    ∧ ((nearTieSet today wl metro cands top.date_iso).length ≤ 1 →
      select_latest_candidates today wl cands metro
        = (some top, rest.take 3, ["latest_date"])) := by
  simp only [validCandidates] at hs huniq
  simp only [nearTieSet, validCandidates]
  rw [sortDateDesc] at hs
  set valid := cands.filter (is_valid_candidate today wl metro) with hvalid
  -- the head of the sorted list is a valid candidate whose date parses
  have htop_mem : top ∈ valid := by
    rw [← mem_sortDescBy (fun c => c.date_iso.data) valid top, hs]
    exact List.mem_cons_self _ _
  have htop_valid : is_valid_candidate today wl metro top = true :=
    (List.mem_filter.mp htop_mem).2
  obtain ⟨p, hp⟩ := strptime_of_valid today wl metro top htop_valid
  have hwnt_top : withinNearTie top.date_iso top.date_iso = true :=
    withinNearTie_self top.date_iso p hp
  -- relate the specification near-tie set to the near-tie list of the code
  have hNperm : List.Perm
      (valid.filter (fun c => withinNearTie c.date_iso top.date_iso))
      (top :: rest.filter (fun c => withinNearTie c.date_iso top.date_iso)) := by
    have h1 := (perm_sortDescBy (fun c => c.date_iso.data) valid).symm.filter
      (fun c => withinNearTie c.date_iso top.date_iso)
    rw [hs, List.filter_cons, if_pos (by rw [hwnt_top])] at h1
    exact h1
  -- the sorted latest-date set is exactly [top]
  have hfilter_sorted : (top :: rest).filter
      (fun c => decide (c.date_iso = top.date_iso)) = [top] := by
    have hperm := (perm_sortDescBy (fun c => c.date_iso.data) valid).filter
      (fun c => decide (c.date_iso = top.date_iso))
    rw [hs] at hperm
    have hlen := hperm.length_eq
    rw [huniq] at hlen
    rw [List.filter_cons, if_pos (by simp)] at hlen ⊢
    have : (rest.filter (fun c => decide (c.date_iso = top.date_iso))) = [] := by
      have := hlen.symm
      simp only [List.length_cons] at this
      exact List.eq_nil_of_length_eq_zero (by omega)
    rw [this]
  have hlenN : (top :: rest.filter
        (fun c => withinNearTie c.date_iso top.date_iso)).length
      = (valid.filter (fun c => withinNearTie c.date_iso top.date_iso)).length :=
    hNperm.length_eq.symm
  constructor
  · intro h1N
    -- the near-tie list of the code is non-empty, its precedence sort too
    obtain ⟨w, ws, hsp⟩ : ∃ w ws, sortPrecDesc (top :: rest.filter
        (fun c => withinNearTie c.date_iso top.date_iso)) = w :: ws := by
      cases hsp : sortPrecDesc (top :: rest.filter
          (fun c => withinNearTie c.date_iso top.date_iso)) with
      | nil =>
        exact absurd ((sortDescBy_eq_nil_iff _ _).mp hsp) (by simp)
      | cons w ws => exact ⟨w, ws, rfl⟩
    refine ⟨w, ((top :: rest).take 4).filter (fun c => decide (c ≠ w)),
      ?_, ?_, ?_⟩
    · rw [select_latest_candidates, ← hvalid, sortDateDesc, hs]
      dsimp only
      rw [hfilter_sorted]
      dsimp only
      rw [if_pos (by omega), hsp]
    · rw [hNperm.mem_iff]
      have hmem : w ∈ sortPrecDesc (top :: rest.filter
          (fun c => withinNearTie c.date_iso top.date_iso)) := by
        rw [hsp]
        exact List.mem_cons_self _ _
      exact (mem_sortDescBy _ _ w).mp hmem
    · intro x hx
      have hx' : x ∈ w :: ws := by
        rw [← hsp]
        exact (mem_sortDescBy _ _ x).mpr (hNperm.mem_iff.mp hx)
      exact head_key_max (fun c => sourcePrecedence c.source_type) w ws
        (hsp ▸ sorted_sortDescBy _ _) x hx'
  · intro hle
    rw [select_latest_candidates, ← hvalid, sortDateDesc, hs]
    dsimp only
    rw [hfilter_sorted]
    dsimp only
    rw [if_neg (by omega)]

/-- Witness for C3: two candidates exactly 3 days apart, the earlier with
sourceType "venue" and the later "press" — the earlier, higher-precedence
one wins with the near-tie path. -/
theorem C3_witness :
    (∃ w alts, select_latest_candidates todayFix wlFix [cPress, cVenue] "SF"
        = (some w, alts, ["latest_date", "near_tie_precedence"])
      ∧ w ∈ nearTieSet todayFix wlFix "SF" [cPress, cVenue] cPress.date_iso
      ∧ ∀ x ∈ nearTieSet todayFix wlFix "SF" [cPress, cVenue] cPress.date_iso,
          sourcePrecedence x.source_type ≤ sourcePrecedence w.source_type)
    ∧ select_latest_candidates todayFix wlFix [cPress, cVenue] "SF"
        = (some cVenue, [cPress], ["latest_date", "near_tie_precedence"])
    ∧ (daysFromCivil 2024 3 15 - daysFromCivil 2024 3 12).natAbs = 3 :=
  ⟨(C3_near_tie_selection todayFix wlFix "SF" [cPress, cVenue] cPress
      [cVenue] (by decide) (by decide)).1 (by decide),
   by decide, by decide⟩

/-- C4: on an exact-date tie at the latest date, the tied candidates are
scanned in precedence-descending order for the first whose own venue text
occurs case-insensitively in its own snippet; such a candidate wins with
path ["latest_date","precedence","venue_tiebreaker"], otherwise the
precedence maximum wins with path ["latest_date","precedence"]. -/
theorem C4_exact_tie_selection (today : Nat × Nat × Nat)
    (wl : String → List String) (metro : String) (cands : List Candidate)
    (top : Candidate) (rest : List Candidate)
    (hs : sortDateDesc (validCandidates today wl metro cands) = top :: rest)
    (hmulti : 1 < ((validCandidates today wl metro cands).filter
        (fun c => decide (c.date_iso = top.date_iso))).length) :
    ∃ w alts path, select_latest_candidates today wl cands metro
        = (some w, alts, path)
      ∧ w ∈ (validCandidates today wl metro cands).filter
          (fun c => decide (c.date_iso = top.date_iso))
      ∧ ((∃ c ∈ (validCandidates today wl metro cands).filter
            (fun c => decide (c.date_iso = top.date_iso)),
           venueInSnippet c = true) →
          venueInSnippet w = true
          ∧ (∀ c ∈ (validCandidates today wl metro cands).filter
              (fun c => decide (c.date_iso = top.date_iso)),
             venueInSnippet c = true →
               sourcePrecedence c.source_type ≤ sourcePrecedence w.source_type)
          ∧ path = ["latest_date", "precedence", "venue_tiebreaker"])
      ∧ ((∀ c ∈ (validCandidates today wl metro cands).filter
            (fun c => decide (c.date_iso = top.date_iso)),
           venueInSnippet c = false) →
          (∀ c ∈ (validCandidates today wl metro cands).filter
              (fun c => decide (c.date_iso = top.date_iso)),
             sourcePrecedence c.source_type ≤ sourcePrecedence w.source_type)
          ∧ path = ["latest_date", "precedence"]) := by
  simp only [validCandidates] at hs hmulti ⊢
  rw [sortDateDesc] at hs
  set valid := cands.filter (is_valid_candidate today wl metro) with hvalid
  -- the latest-date set of the specification is a permutation of the
  -- latest-date prefix of the sorted list
  have hperm : List.Perm
      ((top :: rest).filter (fun c => decide (c.date_iso = top.date_iso)))
      (valid.filter (fun c => decide (c.date_iso = top.date_iso))) := by
    have h := (perm_sortDescBy (fun c => c.date_iso.data) valid).filter
      (fun c => decide (c.date_iso = top.date_iso))
    rw [hs] at h
    exact h
  have hfc : (top :: rest).filter (fun c => decide (c.date_iso = top.date_iso))
      = top :: rest.filter (fun c => decide (c.date_iso = top.date_iso)) := by
    rw [List.filter_cons, if_pos (by simp)]
  -- the tied tail is non-empty
  obtain ⟨a, t2, hrest⟩ : ∃ a t2,
      rest.filter (fun c => decide (c.date_iso = top.date_iso)) = a :: t2 := by
    cases hr : rest.filter (fun c => decide (c.date_iso = top.date_iso)) with
    | nil =>
      exfalso
      have hlen := hperm.length_eq
      rw [hfc, hr] at hlen
      simp only [List.length_cons, List.length_nil] at hlen
      omega
    | cons a t2 => exact ⟨a, t2, rfl⟩
  have hLperm : List.Perm (top :: a :: t2)
      (valid.filter (fun c => decide (c.date_iso = top.date_iso))) := by
    rw [← hrest, ← hfc]
    exact hperm
  have hsorted := sorted_sortDescBy (fun c => sourcePrecedence c.source_type)
    (top :: a :: t2)
  cases hfind : (sortPrecDesc (top :: a :: t2)).find? venueInSnippet with
  | some cand =>
    refine ⟨cand, ((top :: rest).take 4).filter (fun c => decide (c ≠ cand)),
      ["latest_date", "precedence", "venue_tiebreaker"], ?_, ?_, ?_, ?_⟩
    · rw [select_latest_candidates, ← hvalid, sortDateDesc, hs]
      dsimp only
      rw [hfc, hrest]
      dsimp only
      rw [hfind]
    · rw [← hLperm.mem_iff]
      exact (mem_sortDescBy _ _ cand).mp (List.mem_of_find?_eq_some hfind)
    · intro _
      refine ⟨List.find?_some hfind, ?_, rfl⟩
      intro c hc hgood
      have hc' : c ∈ sortPrecDesc (top :: a :: t2) :=
        (mem_sortDescBy _ _ c).mpr (hLperm.mem_iff.mpr hc)
      exact find?_key_max (fun c => sourcePrecedence c.source_type)
        venueInSnippet _ (sorted_sortDescBy _ _) cand hfind c hc' hgood
    · intro hall
      exfalso
      have hcand_mem : cand ∈ valid.filter
          (fun c => decide (c.date_iso = top.date_iso)) :=
        hLperm.mem_iff.mp ((mem_sortDescBy _ _ cand).mp
          (List.mem_of_find?_eq_some hfind))
      have := hall cand hcand_mem
      rw [List.find?_some hfind] at this
      cases this
  | none =>
    obtain ⟨w, ws, hsp⟩ : ∃ w ws,
        sortPrecDesc (top :: a :: t2) = w :: ws := by
      cases hsp : sortPrecDesc (top :: a :: t2) with
      | nil => exact absurd ((sortDescBy_eq_nil_iff _ _).mp hsp) (by simp)
      | cons w ws => exact ⟨w, ws, rfl⟩
    refine ⟨w, ((top :: rest).take 4).filter (fun c => decide (c ≠ w)),
      ["latest_date", "precedence"], ?_, ?_, ?_, ?_⟩
    · rw [select_latest_candidates, ← hvalid, sortDateDesc, hs]
      dsimp only
      rw [hfc, hrest]
      dsimp only
      rw [hfind, hsp]
    · rw [← hLperm.mem_iff]
      have hmem : w ∈ sortPrecDesc (top :: a :: t2) := by
        rw [hsp]
        exact List.mem_cons_self _ _
      exact (mem_sortDescBy _ _ w).mp hmem
    · rintro ⟨c, hc, hgood⟩
      exfalso
      have hc' : c ∈ sortPrecDesc (top :: a :: t2) :=
        (mem_sortDescBy _ _ c).mpr (hLperm.mem_iff.mpr hc)
      have := List.find?_eq_none.mp hfind c hc'
      rw [hgood] at this
      exact this rfl
    · intro _
      refine ⟨?_, rfl⟩
      intro c hc
      have hc' : c ∈ w :: ws := by
        rw [← hsp]
        exact (mem_sortDescBy _ _ c).mpr (hLperm.mem_iff.mpr hc)
      exact head_key_max (fun c => sourcePrecedence c.source_type) w ws
        (hsp ▸ sorted_sortDescBy _ _) c hc'

/-- Witness for C4: two same-date candidates, press and venue, with no
venue text in the snippets — the venue-sourced one wins with path
["latest_date","precedence"]. -/
theorem C4_witness :
    (∃ w alts path, select_latest_candidates todayFix wlFix
        [cPress, cVenueSameDate] "SF" = (some w, alts, path)
      ∧ w ∈ (validCandidates todayFix wlFix "SF"
          [cPress, cVenueSameDate]).filter
            (fun c => decide (c.date_iso = cPress.date_iso))
      ∧ ((∃ c ∈ (validCandidates todayFix wlFix "SF"
            [cPress, cVenueSameDate]).filter
              (fun c => decide (c.date_iso = cPress.date_iso)),
           venueInSnippet c = true) →
          venueInSnippet w = true
          ∧ (∀ c ∈ (validCandidates todayFix wlFix "SF"
              [cPress, cVenueSameDate]).filter
                (fun c => decide (c.date_iso = cPress.date_iso)),
             venueInSnippet c = true →
               sourcePrecedence c.source_type ≤ sourcePrecedence w.source_type)
          ∧ path = ["latest_date", "precedence", "venue_tiebreaker"])
      ∧ ((∀ c ∈ (validCandidates todayFix wlFix "SF"
            [cPress, cVenueSameDate]).filter
              (fun c => decide (c.date_iso = cPress.date_iso)),
           venueInSnippet c = false) →
          (∀ c ∈ (validCandidates todayFix wlFix "SF"
              [cPress, cVenueSameDate]).filter
                (fun c => decide (c.date_iso = cPress.date_iso)),
             sourcePrecedence c.source_type ≤ sourcePrecedence w.source_type)
          ∧ path = ["latest_date", "precedence"]))
    ∧ select_latest_candidates todayFix wlFix [cPress, cVenueSameDate] "SF"
        = (some cVenueSameDate, [cPress], ["latest_date", "precedence"]) :=
  ⟨C4_exact_tie_selection todayFix wlFix "SF" [cPress, cVenueSameDate]
      cPress [cVenueSameDate] (by decide) (by decide),
   by decide⟩

end LSO
